import Mathlib

/-!
Verification of the Concrnt server core against its specification.

The Go sources are shallowly embedded: pure functions become Lean
functions, database and cache access becomes explicit state passing or
oracle parameters, fallible calls return `Option`/`Except`, and a Go
runtime panic (out-of-range indexing, negative slice bound) is modelled
as a distinguished `panic` outcome.  Machine integers are modelled as
`Nat`/`Int`; byte values carry explicit `< 256` bounds where relevant.
-/

namespace Concrnt

/-! ## Base32 codec (src/x/cdid/cdid.go)

The repository uses Go's `encoding/base32` with the custom alphabet
`"0123456789abcdefghjkmnpqrstvwxyz"` and no padding.  We embed the
RFC 4648 base32 encoding/decoding arithmetic that `encoding/base32`
implements: bytes are processed in 5-byte groups of 8 symbols, with the
standard partial tail groups (1→2, 2→4, 3→5, 4→7 symbols); decoding
rejects symbol-tail lengths 1, 3 and 6 and any character outside the
alphabet. -/

def b32alphabet : List Char := "0123456789abcdefghjkmnpqrstvwxyz".toList

def symToChar (n : Nat) : Char := b32alphabet.getD n '?'

def charToSym (c : Char) : Option Nat := b32alphabet.findIdx? (· == c)

/-- Encoding of one full 5-byte group into 8 base32 symbols. -/
def encGroup5 (b0 b1 b2 b3 b4 : Nat) : List Nat :=
  let n := b0 * 2^32 + b1 * 2^24 + b2 * 2^16 + b3 * 2^8 + b4
  [n / 2^35 % 32, n / 2^30 % 32, n / 2^25 % 32, n / 2^20 % 32,
   n / 2^15 % 32, n / 2^10 % 32, n / 2^5 % 32, n % 32]

/-- Encoding of the RFC 4648 base32 tail groups (1 to 4 leftover bytes). -/
def encTail : List Nat → List Nat
  | [b0] => [b0 / 2^3 % 32, b0 * 2^2 % 32]
  | [b0, b1] =>
    let n := b0 * 2^8 + b1
    [n / 2^11 % 32, n / 2^6 % 32, n / 2^1 % 32, n * 2^4 % 32]
  | [b0, b1, b2] =>
    let n := b0 * 2^16 + b1 * 2^8 + b2
    [n / 2^19 % 32, n / 2^14 % 32, n / 2^9 % 32, n / 2^4 % 32, n * 2^1 % 32]
  | [b0, b1, b2, b3] =>
    let n := b0 * 2^24 + b1 * 2^16 + b2 * 2^8 + b3
    [n / 2^27 % 32, n / 2^22 % 32, n / 2^17 % 32, n / 2^12 % 32,
     n / 2^7 % 32, n / 2^2 % 32, n * 2^3 % 32]
  | _ => []

def b32encSyms : List Nat → List Nat
  | b0 :: b1 :: b2 :: b3 :: b4 :: rest =>
    encGroup5 b0 b1 b2 b3 b4 ++ b32encSyms rest
  | tail => encTail tail

/-- Decoding of one full 8-symbol group into 5 bytes. -/
def decGroup8 (s0 s1 s2 s3 s4 s5 s6 s7 : Nat) : List Nat :=
  let n := s0 * 2^35 + s1 * 2^30 + s2 * 2^25 + s3 * 2^20 +
           s4 * 2^15 + s5 * 2^10 + s6 * 2^5 + s7
  [n / 2^32 % 256, n / 2^24 % 256, n / 2^16 % 256, n / 2^8 % 256, n % 256]

/-- Decoding of the RFC 4648 base32 symbol tails; lengths 1, 3 and 6 are
corrupt input. -/
def decTail : List Nat → Option (List Nat)
  | [] => some []
  | [s0, s1] => some [(s0 * 2^5 + s1) / 2^2 % 256]
  | [s0, s1, s2, s3] =>
    let n := s0 * 2^15 + s1 * 2^10 + s2 * 2^5 + s3
    some [n / 2^12 % 256, n / 2^4 % 256]
  | [s0, s1, s2, s3, s4] =>
    let n := s0 * 2^20 + s1 * 2^15 + s2 * 2^10 + s3 * 2^5 + s4
    some [n / 2^17 % 256, n / 2^9 % 256, n / 2^1 % 256]
  | [s0, s1, s2, s3, s4, s5, s6] =>
    let n := s0 * 2^30 + s1 * 2^25 + s2 * 2^20 + s3 * 2^15 +
             s4 * 2^10 + s5 * 2^5 + s6
    some [n / 2^27 % 256, n / 2^19 % 256, n / 2^11 % 256, n / 2^3 % 256]
  | _ => none

def b32decSyms : List Nat → Option (List Nat)
  | s0 :: s1 :: s2 :: s3 :: s4 :: s5 :: s6 :: s7 :: rest =>
    (b32decSyms rest).map (decGroup8 s0 s1 s2 s3 s4 s5 s6 s7 ++ ·)
  | tail => decTail tail

/-- Character-to-symbol mapping over a whole string, failing on the first
character outside the alphabet, as Go's decoder does. -/
def mapCharsToSyms : List Char → Option (List Nat)
  | [] => some []
  | c :: cs =>
    match charToSym c, mapCharsToSyms cs with
    | some s, some ss => some (s :: ss)
    | _, _ => none

def b32encode (bs : List Nat) : List Char := (b32encSyms bs).map symToChar

def b32decode (cs : List Char) : Option (List Nat) :=
  (mapCharsToSyms cs).bind b32decSyms

/-! ## CDID (src/x/cdid/cdid.go) -/

/-- CDID per `src/x/cdid/cdid.go`: 10 data bytes and 6 big-endian
millisecond-timestamp bytes. -/
structure CDID where
  data : List Nat
  time : List Nat
deriving DecidableEq

/-- Well-formedness of the byte arrays backing a `CDID` value
(`[10]byte` and `[6]byte` in Go). -/
def CDID.wf (c : CDID) : Prop :=
  c.data.length = 10 ∧ c.time.length = 6 ∧
  (∀ b ∈ c.data, b < 256) ∧ (∀ b ∈ c.time, b < 256)

instance (c : CDID) : Decidable c.wf := by unfold CDID.wf; infer_instance

/-- Go `CDID.Bytes`: data followed by time. -/
def CDID.bytes (c : CDID) : List Nat := c.data ++ c.time

/-- Go `CDID.String`: base32 encoding of the 16 bytes, no padding. -/
def CDID.render (c : CDID) : String := (b32encode c.bytes).asString

/-- Go zero value `CDID{}`. -/
def zeroCDID : CDID := ⟨List.replicate 10 0, List.replicate 6 0⟩

/-- Go `cdid.Parse`.  Faithful to the source: a decoder error is an
error return (`none`), but a successful decode of a byte string whose
length is not 16 returns `CDID{}` with a nil error, i.e. `some zeroCDID`. -/
def cdidParse (s : String) : Option CDID :=
  match b32decode s.toList with
  | none => none
  | some b =>
    if b.length ≠ 16 then some zeroCDID
    else some ⟨b.take 10, b.drop 10⟩

/-- Modelled from the spec: `IsSeemsCDID(s, pfx)` (spec §4.1) returns
true iff `len(s) == 27`, `s[0] == pfx`, and `s[1:]` decodes to 16 bytes
in Crockford base32.  The Go source file defining `IsSeemsCDID` is not
under `src/`; only its callers are. -/
def isSeemsCDID (s : String) (pfx : Char) : Bool :=
  match s.toList with
  | c :: rest =>
    c == pfx && rest.length == 26 &&
      (match b32decode rest with
       | some b => b.length == 16
       | none => false)
  | [] => false

/-! ## Go string helpers

Strings in the embedded code are ASCII identifiers, so Go's byte-wise
`len`/indexing/slicing coincide with character-wise operations.
`goSplit` embeds `strings.Split` for a one-character separator. -/

def splitChar (sep : Char) : List Char → List (List Char)
  | [] => [[]]
  | c :: cs =>
    let r := splitChar sep cs
    if c = sep then [] :: r
    else
      match r with
      | h :: t => (c :: h) :: t
      | [] => [[c]]

def goSplit (s : String) (sep : Char) : List String :=
  (splitChar sep s.toList).map List.asString

/-- Go `len(s)` (byte length; our strings are ASCII). -/
def goLen (s : String) : Nat := s.toList.length

/-- Go `s[0]`; `none` models the index-out-of-range panic on `""`. -/
def goFirst (s : String) : Option Char := s.toList.head?

/-- Go `s[1:]`. -/
def goDropOne (s : String) : String := (s.toList.drop 1).asString

/-- Go `strings.Contains(s, sep)` for a one-character separator. -/
def goContains (s : String) (sep : Char) : Bool := s.toList.contains sep

/-! ## Core data model

The `core` package of the repository is only partially present under
`src/` (`src/core/model.go` and `src/unnamed/part_006`); the structs
below follow those files and, where a struct is missing, the data model
of spec §3. -/

/-- TimelineItem (spec §3; fields as used by `src/unnamed/part_002` and
`part_003`). `cDate` is a millisecond timestamp; Go `t.After(u)` is
`u < t`. -/
structure TimelineItem where
  resourceID : String
  timelineID : String
  owner : String
  author : Option String
  schema : String
  cDate : Int
deriving DecidableEq

/-- Chunk as used by `src/unnamed/part_002` (`core.Chunk{Key, Epoch,
Items}`). -/
structure Chunk where
  key : String
  epoch : String
  items : List TimelineItem
deriving DecidableEq

/-- Entity (spec §3; fields as used by `src/x/entity/service.go`). -/
structure Entity where
  id : String
  domain : String
  tag : String
  score : Int
  isScoreFixed : Bool
  affiliationDocument : String
  affiliationSignature : String
  tombstonePayload : Option String
  tombstoneSignature : Option String
deriving DecidableEq

/-- Go zero value `core.Entity{}`. -/
def emptyEntity : Entity := ⟨"", "", "", 0, false, "", "", none, none⟩

/-- EntityMeta as used by `src/x/entity/service.go`. -/
structure EntityMeta where
  id : String
  info : String
  inviter : Option String
deriving DecidableEq

/-- Timeline (spec §3; fields as used by `src/unnamed/part_002` and
`part_003`). -/
structure Timeline where
  id : String
  indexable : Bool
  author : String
  domainOwned : Bool
  schema : String
  policy : String
  policyParams : Option String
  document : String
  signature : String
deriving DecidableEq

/-- AffiliationDocument `{Signer, Domain, SignedAt}` as read by
`Affiliation` in `src/x/entity/service.go`. -/
structure AffiliationDocument where
  signer : String
  domain : String
  signedAt : Int
deriving DecidableEq

/-- Option payload of `Affiliation` (`affiliationOption`). -/
structure AffiliationOption where
  info : String
  invitation : String
deriving DecidableEq

/-- JWT claims consulted by the invite branch of `Affiliation`. -/
structure JwtClaims where
  issuer : String
  subject : String
  expirationTime : String
  jwtID : String
deriving DecidableEq

/-- TimelineDocument as read by `UpsertTimeline` in
`src/unnamed/part_003` (subset of `core.TimelineDocument` from
`part_006` that the function touches). -/
structure TimelineDocument where
  id : String
  signer : String
  signedAt : Int
  semanticID : String
  policy : String
  policyParams : String
  indexable : Bool
  domainOwned : Bool
  schema : String
deriving DecidableEq

/-- DocumentBase fields consulted by the store dispatcher
(`src/unnamed/part_006`). -/
structure DocumentBase where
  type : String
  signer : String
  keyID : String
deriving DecidableEq

/-- DeleteDocument (`src/unnamed/part_006`). -/
structure DeleteDocument where
  target : String
deriving DecidableEq

/-- PolicyEvalResult (spec §4.4): `{Allow, Deny, Never, Default}`. -/
inductive PolicyEvalResult where
  | never
  | deny
  | dflt
  | allow
deriving DecidableEq

/-- Modelled from the spec: `core.IsCCID` — a CCID is a `con1…` address
(glossary).  The Go source of `IsCCID` is not under `src/`. -/
def isCCID (s : String) : Bool := s.toList.take 4 == "con1".toList

/-- Modelled from the spec: `core.IsCKID` — a CKID is a `cck1…` subkey id
(glossary). -/
def isCKID (s : String) : Bool := s.toList.take 4 == "cck1".toList

/-- Modelled from the spec: `core.IsCSID` — a CSID is a `ccs1…` domain
signing id (glossary). -/
def isCSID (s : String) : Bool := s.toList.take 4 == "ccs1".toList

/-- Outcome of a Go call: a value, a non-nil error, or a runtime panic. -/
inductive GoResult (α : Type) where
  | ok (val : α)
  | err
  | panic
deriving DecidableEq

/-- Association-list lookup, modelling a Go map read with an `ok` flag. -/
def lookupAssoc {α : Type} (m : List (String × α)) (k : String) : Option α :=
  (m.find? (·.1 == k)).map (·.2)

/-- Go `m[k] = v` on a map modelled as an insertion-ordered association
list. -/
def assocSet {α : Type} (m : List (String × α)) (k : String) (v : α) :
    List (String × α) :=
  if m.any (·.1 == k) then m.map (fun p => if p.1 == k then (k, v) else p)
  else m ++ [(k, v)]

def assocSetAll {α : Type} (m : List (String × α)) (kvs : List (String × α)) :
    List (String × α) :=
  kvs.foldl (fun acc kv => assocSet acc kv.1 kv.2) m

/-- Go `m[k] = append(m[k], v)` for a map of slices. -/
def assocAppend (m : List (String × List String)) (k : String) (v : String) :
    List (String × List String) :=
  if m.any (·.1 == k) then
    m.map (fun p => if p.1 == k then (p.1, p.2 ++ [v]) else p)
  else m ++ [(k, [v])]

/-! ## Timeline service (src/unnamed/part_003)

The service depends on the repository, the entity service, the semantic-id
service and the policy service; those dependencies appear as oracle
fields of `TLDeps`.  `time2Chunk`, `chunk2RecentTime` and `prevChunk`
embed `core.Time2Chunk`, `core.Chunk2RecentTime` and `core.PrevChunk`,
whose sources are not under `src/`; the claims below hold for every
implementation of them, so they stay abstract. -/

structure TLDeps where
  fqdn : String
  getNormCache : String → Option String
  entityGet : String → Option Entity
  semanticidLookup : String → String → Option String
  time2Chunk : Int → String
  chunk2RecentTime : String → Int
  prevChunk : String → String
  getChunksFromCache : List String → String → Option (List (String × Chunk))
  getChunksFromDB : List String → String → Option (List (String × Chunk))
  getChunksFromRemote : String → List String → Int → Option (List (String × Chunk))

/-- `NormalizeTimelineID` (part_003 lines 86–150).  The
`SetNormalizationCache` write at the end cannot influence the returned
value (its error is only recorded), so the pure embedding elides it. -/
def normalizeTimelineID (d : TLDeps) (timeline : String) : Option String :=
  match d.getNormCache timeline with
  | some cached => some cached
  | none =>
    let split := goSplit timeline '@'
    if split.length = 1 then some (timeline ++ "@" ++ d.fqdn)
    else
      let id := split.headD ""
      let dom0 := split.getLastD ""
      let userid0 := if split.length = 3 then split.getD 1 "" else ""
      match
        (if isCCID dom0 then (d.entityGet dom0).map (fun e => (dom0, e.domain))
         else some (userid0, dom0)) with
      | none => none
      | some (userid, dom) =>
        if dom = d.fqdn then
          if isSeemsCDID id 't' then some (id ++ "@" ++ dom)
          else
            match d.semanticidLookup id userid with
            | none => none
            | some target => some (target ++ "@" ++ dom)
        else
          if isSeemsCDID id 't' then some (id ++ "@" ++ dom)
          else some (id ++ "@" ++ userid ++ "@" ++ dom)

/-- Normalization loop of `GetRecentItems` (part_003 lines 232–252):
ids failing normalization are skipped; normalized ids with a domain part
are grouped per domain. -/
def normPhase (d : TLDeps) (timelines : List String) :
    List String × List (String × List String) :=
  timelines.foldl
    (fun acc t =>
      match normalizeTimelineID d t with
      | none => acc
      | some n =>
        let split := goSplit n '@'
        let dom := split.getLastD ""
        let dmap := if 2 ≤ split.length then assocAppend acc.2 dom n else acc.2
        (acc.1 ++ [n], dmap))
    ([], [])

/-- Per-domain batch fill of `GetRecentItems` (part_003 lines 263–285):
for the local domain a DB failure fails the call; a remote failure is
logged and skipped. -/
def fillDomains (d : TLDeps) (untilChunk : String) (untl : Int) :
    List (String × List String) → List (String × Chunk) →
    Option (List (String × Chunk))
  | [], items => some items
  | (host, tls) :: rest, items =>
    if host = d.fqdn then
      match d.getChunksFromDB tls untilChunk with
      | none => none
      | some chunks => fillDomains d untilChunk untl rest (assocSetAll items chunks)
    else
      match d.getChunksFromRemote host tls untl with
      | none => fillDomains d untilChunk untl rest items
      | some chunks => fillDomains d untilChunk untl rest (assocSetAll items chunks)

/-- Deduplication by `ResourceID` keeping first occurrences (part_003
lines 298–305). -/
def dedupByResourceID : List TimelineItem → List String → List TimelineItem
  | [], _ => []
  | x :: xs, seen =>
    if seen.contains x.resourceID then dedupByResourceID xs seen
    else x :: dedupByResourceID xs (x.resourceID :: seen)

/-- Ordering used by `sort.Slice(uniq, l.CDate.After(r.CDate))`: later
`CDate` first. -/
def byCDateDesc (a b : TimelineItem) : Prop := b.cDate ≤ a.cDate

instance : DecidableRel byCDateDesc := fun a b => Int.decLe b.cDate a.cDate

instance : IsTotal TimelineItem byCDateDesc :=
  ⟨fun a b => le_total b.cDate a.cDate⟩

instance : IsTrans TimelineItem byCDateDesc :=
  ⟨fun _ _ _ hab hbc => le_trans hbc hab⟩

def sortByCDateDesc (l : List TimelineItem) : List TimelineItem :=
  List.insertionSort byCDateDesc l

/-- Tail of `GetRecentItems` (part_003 lines 287–313): flatten the merged
chunks, drop items newer than `until`, dedup by `ResourceID`, sort by
`CDate` descending, and slice `uniq[:min(len(uniq), limit)]`; a negative
`limit` makes the Go slice expression panic. -/
def summarizePhase (items : List (String × Chunk)) (untl : Int) (limit : Int) :
    GoResult (List TimelineItem) :=
  let messages :=
    ((items.map (fun p => p.2.items)).flatten).filter
      (fun i => decide (i.cDate ≤ untl))
  let uniq := dedupByResourceID messages []
  let sorted := sortByCDateDesc uniq
  if limit < 0 then .panic else .ok (sorted.take limit.toNat)

/-- `GetRecentItems` (part_003 lines 228–314). -/
def getRecentItems (d : TLDeps) (timelines : List String) (untl : Int)
    (limit : Int) : GoResult (List TimelineItem) :=
  match d.getChunksFromCache (normPhase d timelines).1 (d.time2Chunk untl) with
  | none => .err
  | some cacheItems =>
    match fillDomains d (d.time2Chunk untl) untl (normPhase d timelines).2
        cacheItems with
    | none => .err
    | some items => summarizePhase items untl limit

/-! ## Timeline repository (src/unnamed/part_002)

The relational table of timeline items is a list of rows; a gorm query
`WHERE timeline_id = ? AND c_date <= ? ORDER BY c_date DESC LIMIT n`
becomes filter + sort + take.  Memcached is modelled as two typed
stores: `String → Option String` for iterator/normalization entries and
`String → Option (List TimelineItem)` for chunk bodies (the body store
holds the parsed items; the comma-prefixed JSON round-trip of the source
is the identity on this model).  Cache writes (`mc.Set`) cannot
influence the return value of the call that issues them — no key is
re-read after being written within one call — so the pure embedding
elides them. -/

def dbQueryDesc (db : List TimelineItem) (tlID : String) (maxDate : Int)
    (limit : Nat) : List TimelineItem :=
  (sortByCDateDesc
    (db.filter (fun i => i.timelineID == tlID && decide (i.cDate ≤ maxDate)))).take
    limit

/-- Shared id preprocessing of `GetChunkIterators`, `GetChunksFromDB` and
`loadLocalBody`: strip the `@domain` part, then strip a leading `t` from
a 27-character id (a 27-character id not starting with `t` is an error). -/
def dbIDOfTimeline (timeline : String) : Option String :=
  let tid := if goContains timeline '@' then (goSplit timeline '@').headD ""
             else timeline
  if goLen tid = 27 then
    if goFirst tid = some 't' then some (goDropOne tid) else none
  else some tid

/-- `GetChunkIterators` (part_002 lines 757–800): per timeline, use the
cached iterator; on miss run `First` on the DB (a missing row skips the
timeline, a malformed id fails the whole call). -/
def repoGetChunkIterators (mcItr : String → Option String)
    (db : List TimelineItem) (t2c : Int → String) (c2rt : String → Int) :
    List String → String → Option (List (String × String))
  | [], _ => some []
  | timeline :: rest, chunk =>
    match mcItr ("timeline:itr:all:" ++ timeline ++ ":" ++ chunk) with
    | some v =>
      (repoGetChunkIterators mcItr db t2c c2rt rest chunk).map
        ((timeline, v) :: ·)
    | none =>
      match dbIDOfTimeline timeline with
      | none => none
      | some dbid =>
        match (dbQueryDesc db dbid (c2rt chunk) 1).head? with
        | none => repoGetChunkIterators mcItr db t2c c2rt rest chunk
        | some item =>
          let key := "timeline:body:all:" ++ timeline ++ ":" ++ t2c item.cDate
          (repoGetChunkIterators mcItr db t2c c2rt rest chunk).map
            ((timeline, key) :: ·)

/-- `GetChunksFromCache` (part_002 lines 640–689): resolve iterators,
then return only the timelines whose body block is in the cache. -/
def repoGetChunksFromCache (mcItr : String → Option String)
    (mcBody : String → Option (List TimelineItem)) (db : List TimelineItem)
    (t2c : Int → String) (c2rt : String → Int) (timelines : List String)
    (chunk : String) : Option (List (String × Chunk)) :=
  match repoGetChunkIterators mcItr db t2c c2rt timelines chunk with
  | none => none
  | some keyMap =>
    some (timelines.foldr
      (fun timeline acc =>
        match lookupAssoc keyMap timeline with
        | none => acc
        | some targetKey =>
          match mcBody targetKey with
          | none => acc
          | some items => (timeline, Chunk.mk targetKey "" items) :: acc)
      [])

/-- `GetChunksFromDB` (part_002 lines 692–754): resolve iterators, then
read up to 100 items per timeline from the DB, appending `@<fqdn>` to
each item's `TimelineID`. -/
def repoChunksFromDBLoop (keyMap : List (String × String))
    (db : List TimelineItem) (c2rt : String → Int) (fqdn : String)
    (chunk : String) : List String → Option (List (String × Chunk))
  | [] => some []
  | timeline :: rest =>
    let targetKey := (lookupAssoc keyMap timeline).getD ""
    match dbIDOfTimeline timeline with
    | none => none
    | some dbid =>
      let items := dbQueryDesc db dbid (c2rt chunk) 100
      let items' := items.map
        (fun i => { i with timelineID := i.timelineID ++ "@" ++ fqdn })
      (repoChunksFromDBLoop keyMap db c2rt fqdn chunk rest).map
        ((timeline, Chunk.mk targetKey "" items') :: ·)

def repoGetChunksFromDB (mcItr : String → Option String)
    (db : List TimelineItem) (t2c : Int → String) (c2rt : String → Int)
    (fqdn : String) (timelines : List String) (chunk : String) :
    Option (List (String × Chunk)) :=
  match repoGetChunkIterators mcItr db t2c c2rt timelines chunk with
  | none => none
  | some keyMap => repoChunksFromDBLoop keyMap db c2rt fqdn chunk timelines

/-- `loadLocalBody` (part_002 lines 361–425).  Faithful to the source:
after the first query (up to `defaultChunkSize = 32` items with
`c_date <= epoch-end` in descending order) the code reads
`items[len(items)-1]` without checking that `items` is non-empty, which
panics for a timeline with no items at or before the epoch end; when the
oldest item read is newer than the previous epoch's upper bound, the
query is re-issued over the range `(epoch-start, epoch-end]` without a
limit.  The final `mc.Set` of the marshalled body is elided (write). -/
def loadLocalBody (db : List TimelineItem) (c2rt : String → Int)
    (prevC : String → String) (fqdn : String) (timeline epoch : String) :
    GoResult Chunk :=
  let chunkDate := c2rt epoch
  let prevChunkDate := c2rt (prevC epoch)
  let tid := if goContains timeline '@' then (goSplit timeline '@').headD ""
             else timeline
  match
    (if goLen tid = 27 then
      (if goFirst tid = some 't' then some (goDropOne tid) else none)
     else some tid) with
  | none => .err
  | some timelineID =>
    let items := dbQueryDesc db timelineID chunkDate 32
    match items.getLast? with
    | none => .panic
    | some last =>
      let items :=
        if prevChunkDate < last.cDate then
          sortByCDateDesc
            (db.filter (fun i =>
              i.timelineID == timelineID && decide (prevChunkDate < i.cDate) &&
                decide (i.cDate ≤ chunkDate)))
        else items
      let items := items.map
        (fun i => { i with timelineID := i.timelineID ++ "@" ++ fqdn })
      .ok (Chunk.mk ("tl:body:" ++ timeline ++ ":" ++ epoch) epoch items)

/-! ## Concrete scenario used to settle C1

A single local timeline with one stored item, empty caches, the deps
wired to the embedded repository over that state — the composition a
real call performs. -/

def tlID26 : String := "00000000000000000000000000"

def itemC1 : TimelineItem :=
  { resourceID := "m0000000000000000000000000"
    timelineID := tlID26
    owner := "con1owner"
    author := none
    schema := "sch"
    cDate := 0 }

def dbC1 : List TimelineItem := [itemC1]

def depsC1 : TLDeps :=
  { fqdn := "local.ex"
    getNormCache := fun _ => none
    entityGet := fun _ => none
    semanticidLookup := fun _ _ => none
    time2Chunk := fun _ => "ch"
    chunk2RecentTime := fun _ => 10
    prevChunk := fun c => c
    getChunksFromCache := fun tls chunk =>
      repoGetChunksFromCache (fun _ => none) (fun _ => none) dbC1
        (fun _ => "ch") (fun _ => 10) tls chunk
    getChunksFromDB := fun tls chunk =>
      repoGetChunksFromDB (fun _ => none) dbC1 (fun _ => "ch") (fun _ => 10)
        "local.ex" tls chunk
    getChunksFromRemote := fun _ _ _ => none }

/-- The item of `dbC1` as it is returned by `GetRecentItems`: the
`TimelineID` stored in the DB is the bare 26-character id, and
`GetChunksFromDB` appends `@<fqdn>` — without restoring the `t` typed-id
marker. -/
def itemC1fq : TimelineItem := { itemC1 with timelineID := tlID26 ++ "@local.ex" }

/-! ## PostItem (src/unnamed/part_003 lines 342–445)

`PostItem` writes through `repo.CreateItem`, the only state-changing
call it makes; the repository state is an abstract type `σ` and
`createItem` an oracle on it.  `TestWithPolicyURL`'s error is only
recorded (the result value is still summarized), so the policy test is a
total oracle; `entity.Get` for the author is likewise only recorded on
error, leaving the zero `Entity`. -/

structure PostDeps (σ : Type) where
  fqdn : String
  entityGet : String → Option Entity
  semanticidLookup : String → String → Option String
  getTimeline : String → Option Timeline
  testPolicy : Timeline → Entity → PolicyEvalResult
  summarize : PolicyEvalResult → Bool
  createItem : σ → TimelineItem → Option TimelineItem × σ

def postItem {σ : Type} (d : PostDeps σ) (st : σ) (timeline : String)
    (item : TimelineItem) : Option TimelineItem × σ :=
  if (goSplit timeline '@').length ≠ 2 then (none, st)
  else
    match
      (if isCCID ((goSplit timeline '@').getLastD "") then
        (d.entityGet ((goSplit timeline '@').getLastD "")).map (·.domain)
       else some ((goSplit timeline '@').getLastD "")) with
    | none => (none, st)
    | some timelineHost =>
      match
        (if ¬ isSeemsCDID ((goSplit timeline '@').headD "") 't' ∧
            timelineHost = d.fqdn ∧
            isCCID ((goSplit timeline '@').getLastD "") then
          d.semanticidLookup ((goSplit timeline '@').headD "")
            ((goSplit timeline '@').getLastD "")
         else some ((goSplit timeline '@').headD "")) with
      | none => (none, st)
      | some timelineID2 =>
        if timelineHost ≠ d.fqdn then (none, st)
        else
          match d.getTimeline timeline with
          | none => (none, st)
          | some tl =>
            if ¬ d.summarize (d.testPolicy tl
                ((d.entityGet (item.author.getD item.owner)).getD emptyEntity))
            then (none, st)
            else d.createItem st { item with timelineID := timelineID2 }

/-- The timeline host after CCID resolution, as computed by the prefix of
`PostItem`; `none` when the format or the entity lookup fails. -/
def resolvedTimelineHost {σ : Type} (d : PostDeps σ) (timeline : String) :
    Option String :=
  if (goSplit timeline '@').length ≠ 2 then none
  else
    if isCCID ((goSplit timeline '@').getLastD "") then
      (d.entityGet ((goSplit timeline '@').getLastD "")).map (·.domain)
    else some ((goSplit timeline '@').getLastD "")

/-- The `timeline.distribute` gate of `PostItem`: true iff the pre-create
chain succeeds and the policy summary allows the write. -/
def distributeAllowed {σ : Type} (d : PostDeps σ) (timeline : String)
    (item : TimelineItem) : Bool :=
  match resolvedTimelineHost d timeline with
  | none => false
  | some timelineHost =>
    match
      (if ¬ isSeemsCDID ((goSplit timeline '@').headD "") 't' ∧
          timelineHost = d.fqdn ∧
          isCCID ((goSplit timeline '@').getLastD "") then
        d.semanticidLookup ((goSplit timeline '@').headD "")
          ((goSplit timeline '@').getLastD "")
       else some ((goSplit timeline '@').headD "")) with
    | none => false
    | some _ =>
      match d.getTimeline timeline with
      | none => false
      | some tl =>
        d.summarize (d.testPolicy tl
          ((d.entityGet (item.author.getD item.owner)).getD emptyEntity))

/-- Concrete timeline used by the C2 witness. -/
def tlW : Timeline :=
  { id := "t" ++ tlID26
    indexable := true
    author := "con1owner"
    domainOwned := false
    schema := "s"
    policy := ""
    policyParams := none
    document := ""
    signature := "" }

/-- Concrete item used by the C2 witness. -/
def itemW : TimelineItem := { itemC1 with timelineID := "t" ++ tlID26 }

/-- Concrete `PostItem` dependencies used by the C2 witness. -/
def postDepsW : PostDeps (List TimelineItem) :=
  { fqdn := "local.ex"
    entityGet := fun s =>
      if s = "con1owner" then
        some { emptyEntity with id := "con1owner", domain := "local.ex" }
      else none
    semanticidLookup := fun _ _ => none
    getTimeline := fun s =>
      if s = "t" ++ tlID26 ++ "@local.ex" then some tlW else none
    testPolicy := fun _ _ => .allow
    summarize := fun r => r == .allow
    createItem := fun st it => (some it, st ++ [it]) }

/-! ## Commit dispatcher (src/x/store/service.go)

Per-type services are oracles over an abstract state `σ`; each returns a
Go `(any, error)` pair collapsed to `GoResult Unit` plus the new state.
The requester keychain read from the context is folded into the
`validateDocument` oracle. -/

structure StoreDeps (σ : Type) where
  parseBase : String → Option DocumentBase
  parseDelete : String → Option DeleteDocument
  validateDocument : String → String → Option Unit
  messageCreate : σ → String → String → GoResult Unit × σ
  associationCreate : σ → String → String → GoResult Unit × σ
  profileUpsert : σ → String → String → GoResult Unit × σ
  affiliation : σ → String → String → String → GoResult Unit × σ
  tombstone : σ → String → String → GoResult Unit × σ
  upsertTimeline : σ → String → String → GoResult Unit × σ
  ack : σ → String → String → GoResult Unit × σ
  createSubscription : σ → String → String → GoResult Unit × σ
  subscribe : σ → String → String → GoResult Unit × σ
  unsubscribe : σ → String → GoResult Unit × σ
  messageDelete : σ → String → String → GoResult Unit × σ
  associationDelete : σ → String → String → GoResult Unit × σ
  profileDelete : σ → String → GoResult Unit × σ
  deleteTimeline : σ → String → GoResult Unit × σ

/-- `Commit` (service.go lines 56–119).  The Go `switch` is an if-chain;
`doc.Target[0]` on an empty target is an index-out-of-range panic. -/
def commit {σ : Type} (d : StoreDeps σ) (st : σ)
    (document signature opt : String) : GoResult Unit × σ :=
  match d.parseBase document with
  | none => (.err, st)
  | some base =>
    match d.validateDocument document signature with
    | none => (.err, st)
    | some _ =>
      if base.type = "message" then d.messageCreate st document signature
      else if base.type = "association" then
        d.associationCreate st document signature
      else if base.type = "profile" then d.profileUpsert st document signature
      else if base.type = "affiliation" then
        d.affiliation st document signature opt
      else if base.type = "tombstone" then d.tombstone st document signature
      else if base.type = "timeline" then
        d.upsertTimeline st document signature
      else if base.type = "ack" ∨ base.type = "unack" then
        d.ack st document signature
      else if base.type = "subscription" then
        d.createSubscription st document signature
      else if base.type = "subscribe" then d.subscribe st document signature
      else if base.type = "unsubscribe" then d.unsubscribe st document
      else if base.type = "delete" then
        match d.parseDelete document with
        | none => (.err, st)
        | some doc =>
          match goFirst doc.target with
          | none => (.panic, st)
          | some typ =>
            if typ = 'm' then d.messageDelete st document signature
            else if typ = 'a' then d.associationDelete st document signature
            else if typ = 'p' then d.profileDelete st document
            else if typ = 't' then d.deleteTimeline st document
            else (.err, st)
      else (.err, st)

/-- Concrete dispatcher dependencies used for C3: `"docDel"` parses as a
`delete` document with an empty `Target`. -/
def storeDepsW : StoreDeps (List String) :=
  { parseBase := fun s =>
      if s = "docDel" then some ⟨"delete", "con1signer", ""⟩ else none
    parseDelete := fun s => if s = "docDel" then some ⟨""⟩ else none
    validateDocument := fun _ _ => some ()
    messageCreate := fun st dc _ => (.ok (), st ++ [dc])
    associationCreate := fun st dc _ => (.ok (), st ++ [dc])
    profileUpsert := fun st dc _ => (.ok (), st ++ [dc])
    affiliation := fun st dc _ _ => (.ok (), st ++ [dc])
    tombstone := fun st dc _ => (.ok (), st ++ [dc])
    upsertTimeline := fun st dc _ => (.ok (), st ++ [dc])
    ack := fun st dc _ => (.ok (), st ++ [dc])
    createSubscription := fun st dc _ => (.ok (), st ++ [dc])
    subscribe := fun st dc _ => (.ok (), st ++ [dc])
    unsubscribe := fun st dc => (.ok (), st ++ [dc])
    messageDelete := fun st dc _ => (.ok (), st ++ [dc])
    associationDelete := fun st dc _ => (.ok (), st ++ [dc])
    profileDelete := fun st dc => (.ok (), st ++ [dc])
    deleteTimeline := fun st dc => (.ok (), st ++ [dc]) }

/-! ## Entity service: Affiliation (src/x/entity/service.go lines 340–527)

State: the entity and entity-meta tables plus the set of consumed
invitation JTIs.  `jwt.Validate`, the JSON parsers, `ResolveSubkey` and
the global invite policy are oracles.  `repository.Upsert` /
`UpsertWithMeta` are gorm `Save`s: replace the row with the same primary
key, or insert. -/

structure EntState where
  entities : List Entity
  metas : List EntityMeta
  jtis : List String
deriving DecidableEq

structure EntDeps where
  fqdn : String
  siteKey : String
  registration : String
  csid : String
  captchaVerified : Option Bool
  parseAffiliation : String → Option AffiliationDocument
  parseOption : String → Option AffiliationOption
  jwtValidate : String → Option JwtClaims
  resolveSubkey : String → Option String
  testGlobalPolicy : Entity → Option PolicyEvalResult
  parseInt : String → Option Int

/-- `repository.Get`: `First` on `id = key`. -/
def entGet (es : List Entity) (key : String) : Option Entity :=
  es.find? (·.id == key)

/-- gorm `Save` on a table with primary key `key`: replace the row with
the same key, or insert.  The table holds at most one row per key. -/
def upsertByID {α : Type} (key : α → String) : List α → α → List α
  | [], e => [e]
  | r :: rs, e =>
    if key r == key e then e :: rs else r :: upsertByID key rs e

/-- gorm `Save` of an entity row. -/
def upsertEntityRow (es : List Entity) (e : Entity) : List Entity :=
  upsertByID (·.id) es e

/-- gorm `Save` of an entity-meta row. -/
def upsertMetaRow (ms : List EntityMeta) (m : EntityMeta) : List EntityMeta :=
  upsertByID (·.id) ms m

/-- The entity row the local branches upsert (zero `Tag`/`Score`). -/
def localAffiliationEntity (doc : AffiliationDocument)
    (document signature : String) : Entity :=
  { id := doc.signer
    domain := doc.domain
    tag := ""
    score := 0
    isScoreFixed := false
    affiliationDocument := document
    affiliationSignature := signature
    tombstonePayload := none
    tombstoneSignature := none }

/-- The entity row the remote branch upserts: `Tag`, `Score` and
`IsScoreFixed` are taken from the existing row when `repository.Get`
succeeded, and are zero otherwise. -/
def remoteAffiliationEntity (doc : AffiliationDocument)
    (document signature : String) (existing : Option Entity) : Entity :=
  { id := doc.signer
    domain := doc.domain
    tag := match existing with | some ex => ex.tag | none => ""
    score := match existing with | some ex => ex.score | none => 0
    isScoreFixed := match existing with | some ex => ex.isScoreFixed | none => false
    affiliationDocument := document
    affiliationSignature := signature
    tombstonePayload := none
    tombstoneSignature := none }

/-- The inviter admission check of the invite branch (service.go lines
430–463): resolve a CKID issuer to its root; a CSID issuer must be the
domain's own CSID; any other issuer must be a stored entity whose
global `invite` policy does not evaluate to `Never` or `Deny`. -/
def inviteIssuerCheck (d : EntDeps) (st : EntState) (issuer : String) :
    Option Unit :=
  match (if isCKID issuer then d.resolveSubkey issuer else some issuer) with
  | none => none
  | some inviterID =>
    if isCSID inviterID then
      if inviterID = d.csid then some () else none
    else
      match entGet st.entities inviterID with
      | none => none
      | some inviter =>
        match d.testGlobalPolicy inviter with
        | none => none
        | some policyResult =>
          if policyResult = .never ∨ policyResult = .deny then none
          else some ()

/-- Body of `Affiliation` after the newer-wins guard (service.go lines
366–526).  `existing` is the result of the initial `repository.Get`
(`none` models the error return of `Get`).  The `strconv.ParseInt`
failure path returns `(registered, err)` in Go — a non-nil error with an
entity payload; this embedding keeps the error (the entity payload is
dropped) and the state in which the row is upserted but the JTI is not
yet invalidated. -/
def affiliationBody (d : EntDeps) (st : EntState)
    (document signature opt : String) (doc : AffiliationDocument)
    (existing : Option Entity) : Option Entity × EntState :=
  if doc.domain = d.fqdn then
    if d.siteKey ≠ "" ∧ d.captchaVerified ≠ some true then (none, st)
    else
      match d.parseOption opt with
      | none => (none, st)
      | some opts =>
        if d.registration = "open" then
          (some (localAffiliationEntity doc document signature),
           { st with
              entities := upsertEntityRow st.entities
                (localAffiliationEntity doc document signature)
              metas := upsertMetaRow st.metas ⟨doc.signer, opts.info, none⟩ })
        else if d.registration = "invite" then
          if opts.invitation = "" then (none, st)
          else
            match d.jwtValidate opts.invitation with
            | none => (none, st)
            | some claims =>
              if claims.subject ≠ "CONCRNT_INVITE" then (none, st)
              else if st.jtis.contains claims.jwtID then (none, st)
              else
                match inviteIssuerCheck d st claims.issuer with
                | none => (none, st)
                | some _ =>
                  match d.parseInt claims.expirationTime with
                  | none =>
                    (none,
                     { st with
                        entities := upsertEntityRow st.entities
                          (localAffiliationEntity doc document signature)
                        metas := upsertMetaRow st.metas
                          ⟨doc.signer, opts.info, some claims.issuer⟩ })
                  | some _ =>
                    (some (localAffiliationEntity doc document signature),
                     { st with
                        entities := upsertEntityRow st.entities
                          (localAffiliationEntity doc document signature)
                        metas := upsertMetaRow st.metas
                          ⟨doc.signer, opts.info, some claims.issuer⟩
                        jtis := st.jtis ++ [claims.jwtID] })
        else (none, st)
  else
    (some (remoteAffiliationEntity doc document signature existing),
     { st with
        entities := upsertEntityRow st.entities
          (remoteAffiliationEntity doc document signature existing) })

/-- `Affiliation` (service.go lines 340–527): parse the document; when an
entity already exists and its stored affiliation is strictly newer,
return the existing entity untouched; otherwise run the registration /
remote-upsert body. -/
def affiliation (d : EntDeps) (st : EntState) (document signature opt : String) :
    Option Entity × EntState :=
  match d.parseAffiliation document with
  | none => (none, st)
  | some doc =>
    match entGet st.entities doc.signer with
    | some existence =>
      match d.parseAffiliation existence.affiliationDocument with
      | none => (none, st)
      | some ea =>
        if doc.signedAt < ea.signedAt then (some existence, st)
        else affiliationBody d st document signature opt doc (some existence)
    | none => affiliationBody d st document signature opt doc none

/-- Concrete entity-service dependencies for the C7/C10 witnesses:
open registration, no captcha site key. -/
def entDepsO : EntDeps :=
  { fqdn := "local.ex"
    siteKey := ""
    registration := "open"
    csid := "ccs1host"
    captchaVerified := none
    parseAffiliation := fun s =>
      if s = "docL" then some ⟨"con1u", "local.ex", 100⟩
      else if s = "docR" then some ⟨"con1u", "remote.ex", 100⟩
      else if s = "docR0" then some ⟨"con1u", "remote.ex", 50⟩
      else none
    parseOption := fun s => if s = "opt" then some ⟨"", ""⟩ else none
    jwtValidate := fun _ => none
    resolveSubkey := fun _ => none
    testGlobalPolicy := fun _ => none
    parseInt := fun _ => none }

/-- Stored remote entity with operator-assigned tag and score, used by
the C7 witness. -/
def entR : Entity :=
  ⟨"con1u", "remote.ex", "vip", 7, true, "docR0", "s0", none, none⟩

def entStateR : EntState := ⟨[entR], [], []⟩

/-- Concrete entity-service dependencies for the C4 counterexample:
invite registration; `"inv"` validates as an invite JWT with JTI
`"jti1"` issued by the domain's own CSID. -/
def entDepsInv : EntDeps :=
  { fqdn := "local.ex"
    siteKey := ""
    registration := "invite"
    csid := "ccs1host"
    captchaVerified := none
    parseAffiliation := fun s =>
      if s = "docA" then some ⟨"con1u", "local.ex", 100⟩ else none
    parseOption := fun s => if s = "opt" then some ⟨"", "inv"⟩ else none
    jwtValidate := fun s =>
      if s = "inv" then some ⟨"ccs1host", "CONCRNT_INVITE", "1000", "jti1"⟩
      else none
    resolveSubkey := fun _ => none
    testGlobalPolicy := fun _ => none
    parseInt := fun s => if s = "1000" then some 1000 else none }

def entState0 : EntState := ⟨[], [], []⟩

/-- Stored entity whose affiliation (`"docR"`, signed at 100) is newer
than the incoming `"docR0"` (signed at 50); C4 witness. -/
def entR2 : Entity := ⟨"con1u", "remote.ex", "", 0, false, "docR", "s", none, none⟩

def entStateR2 : EntState := ⟨[entR2], [], []⟩

/-! ## UpsertTimeline (src/unnamed/part_003 lines 494–640)

State: the timeline table (rows keyed by the bare 26-character id) and
the semantic-id map `(semanticID, owner) → timelineID`.  The repository
level (part_002) contributes `normalizeLocalDBID`, the gorm `Save`
(`repoUpsertTimeline`) and `GetTimeline`; this model keeps schema and
policy as URL strings, so the schema-interning part of
`preprocess`/`postprocess` is the identity and only the typed-id
restoration remains.  `NormalizeTimelineID`, the policy evaluations and
`cdid.New` over the document hash are oracles. -/

structure TLState where
  timelines : List Timeline
  semantics : List ((String × String) × String)
deriving DecidableEq

structure UTDeps where
  fqdn : String
  parseTimelineDoc : String → Option TimelineDocument
  entityGet : String → Option Entity
  normalize : String → Option String
  createPolicy : TimelineDocument → Entity → Option PolicyEvalResult
  summarizeCreate : PolicyEvalResult → Bool
  updatePolicy : Timeline → TimelineDocument → Entity → PolicyEvalResult
  summarizeUpdate : PolicyEvalResult → Bool
  makeID : String → Int → String

/-- `normalizeLocalDBID` (part_002 lines 474–499). -/
def normalizeLocalDBID (fqdn : String) (id : String) : Option String :=
  match
    (if (goSplit id '@').length = 2 then
      (if (goSplit id '@').getD 1 "" = fqdn then
        some ((goSplit id '@').headD "")
       else none)
     else some id) with
  | none => none
  | some n1 =>
    match
      (if goLen n1 = 27 then
        (if goFirst n1 = some 't' then some (goDropOne n1) else none)
       else some n1) with
    | none => none
    | some n2 => if goLen n2 ≠ 26 then none else some n2

/-- The id-restoration part of `postprocess` (part_002 lines 528–551). -/
def postprocessTimeline (tl : Timeline) : Timeline :=
  if goLen tl.id = 26 then { tl with id := "t" ++ tl.id } else tl

/-- `repository.GetTimeline` (part_002 lines 911–936). -/
def repoGetTimeline (fqdn : String) (tls : List Timeline) (id : String) :
    Option Timeline :=
  match normalizeLocalDBID fqdn id with
  | none => none
  | some bid =>
    match tls.find? (·.id == bid) with
    | none => none
    | some tl => some (postprocessTimeline tl)

/-- gorm `Save` of a timeline row. -/
def upsertTimelineRow (tls : List Timeline) (tl : Timeline) : List Timeline :=
  upsertByID (·.id) tls tl

/-- `repository.UpsertTimeline` (part_002 lines 939–961): preprocess the
id, `Save`, postprocess the returned copy.  The `timeline_count`
increment is a cache write, elided. -/
def repoUpsertTimeline (fqdn : String) (tls : List Timeline) (tl : Timeline) :
    Option (Timeline × List Timeline) :=
  match normalizeLocalDBID fqdn tl.id with
  | none => none
  | some bid =>
    some (postprocessTimeline { tl with id := bid },
      upsertTimelineRow tls { tl with id := bid })

def lookupSem (sem : List ((String × String) × String)) (sid owner : String) :
    Option String :=
  (sem.find? (fun p => p.1.1 == sid && p.1.2 == owner)).map (·.2)

def removeSem (sem : List ((String × String) × String)) (sid owner : String) :
    List ((String × String) × String) :=
  sem.filter (fun p => !(p.1.1 == sid && p.1.2 == owner))

/-- `semanticid.Name`: bind `(sid, owner)` to `tid` (modelled as always
succeeding). -/
def setSem (sem : List ((String × String) × String)) (sid owner tid : String) :
    List ((String × String) × String) :=
  removeSem sem sid owner ++ [((sid, owner), tid)]

/-- The semantic-id pre-step of `UpsertTimeline` (part_003 lines
505–521): on a dangling semantic binding, clean it up; an existing
binding fills a missing `ID` and must agree with a provided one
(`none` models the `SemanticID Mismatch` error). -/
def semanticStep (d : UTDeps) (st : TLState) (doc0 : TimelineDocument) :
    Option (TimelineDocument × TLState) :=
  if doc0.semanticID = "" then some (doc0, st)
  else
    match lookupSem st.semantics doc0.semanticID doc0.signer with
    | none => some (doc0, st)
    | some existingID =>
      match repoGetTimeline d.fqdn st.timelines existingID with
      | none =>
        some (doc0,
          { st with semantics :=
              removeSem st.semantics doc0.semanticID doc0.signer })
      | some _ =>
        if doc0.id = "" then some ({ doc0 with id := existingID }, st)
        else if doc0.id = existingID then some (doc0, st)
        else none

/-- Tail of `UpsertTimeline` (part_003 lines 609–639): save the row,
link the semantic id when present, and return the saved timeline with
`@<fqdn>` appended. -/
def upsertFinal (d : UTDeps) (st : TLState) (doc : TimelineDocument)
    (document signature : String) : Option Timeline × TLState :=
  match repoUpsertTimeline d.fqdn st.timelines
      { id := doc.id
        indexable := doc.indexable
        author := doc.signer
        domainOwned := doc.domainOwned
        schema := doc.schema
        policy := doc.policy
        policyParams :=
          (if doc.policyParams = "" then none else some doc.policyParams)
        document := document
        signature := signature } with
  | none => (none, st)
  | some (saved, tls2) =>
    (some { saved with id := saved.id ++ "@" ++ d.fqdn },
     if doc.semanticID ≠ "" then
       { st with
          timelines := tls2
          semantics := setSem st.semantics doc.semanticID doc.signer saved.id }
     else { st with timelines := tls2 })

/-- `UpsertTimeline` (part_003 lines 494–640). -/
def upsertTimeline (d : UTDeps) (st : TLState) (document signature : String) :
    Option Timeline × TLState :=
  match d.parseTimelineDoc document with
  | none => (none, st)
  | some doc0 =>
    match semanticStep d st doc0 with
    | none => (none, st)
    | some (doc1, st1) =>
      match d.entityGet doc1.signer with
      | none => (none, st1)
      | some signer =>
        if doc1.id = "" then
          match repoGetTimeline d.fqdn st1.timelines
              (d.makeID document doc1.signedAt) with
          | some _ => (none, st1)
          | none =>
            match d.createPolicy
                { doc1 with id := d.makeID document doc1.signedAt } signer with
            | none => (none, st1)
            | some pr =>
              if ¬ d.summarizeCreate pr then (none, st1)
              else
                upsertFinal d st1
                  { doc1 with id := d.makeID document doc1.signedAt }
                  document signature
        else
          match d.normalize doc1.id with
          | none => (none, st1)
          | some nid =>
            if (goSplit nid '@').getLastD "" ≠ d.fqdn then (none, st1)
            else
              match repoGetTimeline d.fqdn st1.timelines
                  ((goSplit nid '@').headD "") with
              | none => (none, st1)
              | some existance =>
                if ¬ d.summarizeUpdate (d.updatePolicy existance
                    { doc1 with
                       id := (goSplit nid '@').headD ""
                       domainOwned := existance.domainOwned } signer) then
                  (none, st1)
                else
                  upsertFinal d st1
                    { doc1 with
                       id := (goSplit nid '@').headD ""
                       domainOwned := existance.domainOwned }
                    document signature

/-- Concrete `UpsertTimeline` dependencies for the C6 witness: the
incoming `"tdoc"` update sets `DomainOwned := true` while the stored row
has `DomainOwned := false`. -/
def utDepsW : UTDeps :=
  { fqdn := "local.ex"
    parseTimelineDoc := fun s =>
      if s = "tdoc" then
        some ⟨"t" ++ tlID26, "con1owner", 100, "", "", "pp", true, true, "sch"⟩
      else none
    entityGet := fun s =>
      if s = "con1owner" then some { emptyEntity with id := "con1owner" }
      else none
    normalize := fun s =>
      if s = "t" ++ tlID26 then some ("t" ++ tlID26 ++ "@local.ex") else none
    createPolicy := fun _ _ => some .allow
    summarizeCreate := fun _ => true
    updatePolicy := fun _ _ _ => .allow
    summarizeUpdate := fun _ => true
    makeID := fun _ _ => "x" }

/-- Stored timeline row (bare 26-character id, not domain-owned). -/
def tlRowW : Timeline :=
  { id := tlID26
    indexable := true
    author := "con1owner"
    domainOwned := false
    schema := "sch"
    policy := ""
    policyParams := none
    document := "d0"
    signature := "s0" }

def utStateW : TLState := ⟨[tlRowW], []⟩

-- ===== end of definitions; theorems below =====

/-! ## Base32 round-trip lemmas -/

set_option maxHeartbeats 3200000 in
theorem decTail_encTail (bs : List Nat) (hlen : bs.length ≤ 4)
    (h : ∀ b ∈ bs, b < 256) : decTail (encTail bs) = some bs := by
  rcases bs with _ | ⟨b0, _ | ⟨b1, _ | ⟨b2, _ | ⟨b3, _ | ⟨b4, rest⟩⟩⟩⟩⟩
  · rfl
  · have h0 := h b0 (by simp)
    simp only [encTail, decTail, Option.some.injEq, List.cons.injEq, and_true]
    omega
  · have h0 := h b0 (by simp); have h1 := h b1 (by simp)
    simp only [encTail, decTail, Option.some.injEq, List.cons.injEq, and_true]
    omega
  · have h0 := h b0 (by simp); have h1 := h b1 (by simp)
    have h2 := h b2 (by simp)
    simp only [encTail, decTail, Option.some.injEq, List.cons.injEq, and_true]
    omega
  · have h0 := h b0 (by simp); have h1 := h b1 (by simp)
    have h2 := h b2 (by simp); have h3 := h b3 (by simp)
    simp only [encTail, decTail, Option.some.injEq, List.cons.injEq, and_true]
    omega
  · simp at hlen

theorem b32encSyms_cons5 (b0 b1 b2 b3 b4 : Nat) (rest : List Nat) :
    b32encSyms (b0 :: b1 :: b2 :: b3 :: b4 :: rest) =
      encGroup5 b0 b1 b2 b3 b4 ++ b32encSyms rest := rfl

theorem b32decSyms_cons8 (s0 s1 s2 s3 s4 s5 s6 s7 : Nat) (xs : List Nat) :
    b32decSyms (s0 :: s1 :: s2 :: s3 :: s4 :: s5 :: s6 :: s7 :: xs) =
      (b32decSyms xs).map (decGroup8 s0 s1 s2 s3 s4 s5 s6 s7 ++ ·) := rfl

set_option maxHeartbeats 1600000 in
theorem decGroup8_encGroup5 (b0 b1 b2 b3 b4 : Nat) (h0 : b0 < 256)
    (h1 : b1 < 256) (h2 : b2 < 256) (h3 : b3 < 256) (h4 : b4 < 256) :
    decGroup8
      ((b0 * 2^32 + b1 * 2^24 + b2 * 2^16 + b3 * 2^8 + b4) / 2^35 % 32)
      ((b0 * 2^32 + b1 * 2^24 + b2 * 2^16 + b3 * 2^8 + b4) / 2^30 % 32)
      ((b0 * 2^32 + b1 * 2^24 + b2 * 2^16 + b3 * 2^8 + b4) / 2^25 % 32)
      ((b0 * 2^32 + b1 * 2^24 + b2 * 2^16 + b3 * 2^8 + b4) / 2^20 % 32)
      ((b0 * 2^32 + b1 * 2^24 + b2 * 2^16 + b3 * 2^8 + b4) / 2^15 % 32)
      ((b0 * 2^32 + b1 * 2^24 + b2 * 2^16 + b3 * 2^8 + b4) / 2^10 % 32)
      ((b0 * 2^32 + b1 * 2^24 + b2 * 2^16 + b3 * 2^8 + b4) / 2^5 % 32)
      ((b0 * 2^32 + b1 * 2^24 + b2 * 2^16 + b3 * 2^8 + b4) % 32) =
      [b0, b1, b2, b3, b4] := by
  generalize hN : b0 * 2^32 + b1 * 2^24 + b2 * 2^16 + b3 * 2^8 + b4 = N
  have key : N / 2^35 % 32 * 2^35 + N / 2^30 % 32 * 2^30 + N / 2^25 % 32 * 2^25 +
      N / 2^20 % 32 * 2^20 + N / 2^15 % 32 * 2^15 + N / 2^10 % 32 * 2^10 +
      N / 2^5 % 32 * 2^5 + N % 32 = N := by omega
  simp only [decGroup8]
  rw [key]
  simp only [List.cons.injEq, and_true]
  refine ⟨by omega, by omega, by omega, by omega, by omega⟩

set_option maxHeartbeats 1600000 in
theorem b32decSyms_encSyms (bs : List Nat) (h : ∀ b ∈ bs, b < 256) :
    b32decSyms (b32encSyms bs) = some bs := by
  have H : ∀ n bs, bs.length ≤ n → (∀ b ∈ bs, b < 256) →
      b32decSyms (b32encSyms bs) = some bs := by
    intro n
    induction n with
    | zero =>
      intro bs hl _
      have : bs = [] := List.length_eq_zero.mp (Nat.le_zero.mp hl)
      subst this; rfl
    | succ n ih =>
      intro bs hl hb
      rcases bs with _ | ⟨b0, _ | ⟨b1, _ | ⟨b2, _ | ⟨b3, _ | ⟨b4, rest⟩⟩⟩⟩⟩
      · rfl
      · exact decTail_encTail _ (by simp) hb
      · exact decTail_encTail _ (by simp) hb
      · exact decTail_encTail _ (by simp) hb
      · exact decTail_encTail _ (by simp) hb
      · have hrest : b32decSyms (b32encSyms rest) = some rest := by
          apply ih
          · simp at hl ⊢; omega
          · intro b hbm; exact hb b (by simp [hbm])
        have h0 := hb b0 (by simp); have h1 := hb b1 (by simp)
        have h2 := hb b2 (by simp); have h3 := hb b3 (by simp)
        have h4 := hb b4 (by simp)
        rw [b32encSyms_cons5]
        simp only [encGroup5, List.cons_append, List.nil_append]
        rw [b32decSyms_cons8, hrest, Option.map_some',
          decGroup8_encGroup5 b0 b1 b2 b3 b4 h0 h1 h2 h3 h4]
        simp
  exact H bs.length bs le_rfl h

theorem charToSym_symToChar (s : Nat) (h : s < 32) :
    charToSym (symToChar s) = some s := by
  interval_cases s <;> decide

theorem encTail_lt (bs : List Nat) : ∀ s ∈ encTail bs, s < 32 := by
  intro s hs
  rcases bs with _ | ⟨b0, _ | ⟨b1, _ | ⟨b2, _ | ⟨b3, _ | ⟨b4, rest⟩⟩⟩⟩⟩
  · simp [encTail] at hs
  · simp only [encTail, List.mem_cons, List.not_mem_nil, or_false] at hs
    rcases hs with h | h <;> subst h <;> omega
  · simp only [encTail, List.mem_cons, List.not_mem_nil, or_false] at hs
    rcases hs with h | h | h | h <;> subst h <;> omega
  · simp only [encTail, List.mem_cons, List.not_mem_nil, or_false] at hs
    rcases hs with h | h | h | h | h <;> subst h <;> omega
  · simp only [encTail, List.mem_cons, List.not_mem_nil, or_false] at hs
    rcases hs with h | h | h | h | h | h | h <;> subst h <;> omega
  · simp [encTail] at hs

theorem b32encSyms_lt (bs : List Nat) : ∀ s ∈ b32encSyms bs, s < 32 := by
  have H : ∀ n bs, bs.length ≤ n → ∀ s ∈ b32encSyms bs, s < 32 := by
    intro n
    induction n with
    | zero =>
      intro bs hl
      have : bs = [] := List.length_eq_zero.mp (Nat.le_zero.mp hl)
      subst this; simp [b32encSyms, encTail]
    | succ n ih =>
      intro bs hl s hs
      rcases bs with _ | ⟨b0, _ | ⟨b1, _ | ⟨b2, _ | ⟨b3, _ | ⟨b4, rest⟩⟩⟩⟩⟩
      · simp [b32encSyms, encTail] at hs
      · exact encTail_lt _ s hs
      · exact encTail_lt _ s hs
      · exact encTail_lt _ s hs
      · exact encTail_lt _ s hs
      · simp only [b32encSyms, encGroup5, List.mem_append, List.mem_cons,
          List.not_mem_nil, or_false] at hs
        rcases hs with hs | hs
        · rcases hs with h | h | h | h | h | h | h | h <;> subst h <;> omega
        · exact ih rest (by simp at hl ⊢; omega) s hs
  exact H bs.length bs le_rfl

theorem mapCharsToSyms_encode (syms : List Nat) (h : ∀ s ∈ syms, s < 32) :
    mapCharsToSyms (syms.map symToChar) = some syms := by
  induction syms with
  | nil => rfl
  | cons s ss ih =>
    have hs := charToSym_symToChar s (h s (by simp))
    have hss := ih (fun x hx => h x (by simp [hx]))
    simp [mapCharsToSyms, hs, hss]

theorem b32decode_encode (bs : List Nat) (h : ∀ b ∈ bs, b < 256) :
    b32decode (b32encode bs) = some bs := by
  unfold b32decode b32encode
  rw [mapCharsToSyms_encode _ (b32encSyms_lt bs)]
  exact b32decSyms_encSyms bs h

/-! ## C8: CDID round-trip -/

/-- C8: for every well-formed CDID `c` (any 10 data bytes and 6 time
bytes), `Parse(String(c))` succeeds and returns a CDID equal to `c`. -/
theorem cdidParse_render (c : CDID) (h : c.wf) :
    cdidParse c.render = some c := by
  obtain ⟨hd, ht, hbd, hbt⟩ := h
  have hlt : ∀ b ∈ c.bytes, b < 256 := by
    intro b hb
    rcases List.mem_append.1 hb with h' | h'
    · exact hbd b h'
    · exact hbt b h'
  have hlen : c.bytes.length = 16 := by
    simp [CDID.bytes, hd, ht]
  have hdec : b32decode c.render.toList = some c.bytes := by
    rw [CDID.render, List.toList_asString]
    exact b32decode_encode _ hlt
  rw [cdidParse, hdec]
  show (if c.bytes.length ≠ 16 then some zeroCDID
        else some ⟨c.bytes.take 10, c.bytes.drop 10⟩) = some c
  rw [if_neg (by simp [hlen])]
  have h1 : c.bytes.take 10 = c.data := by
    rw [CDID.bytes, ← hd, List.take_left]
  have h2 : c.bytes.drop 10 = c.time := by
    rw [CDID.bytes, ← hd, List.drop_left]
  cases c
  simp_all

/-- Witness for C8 at the all-zero CDID. -/
theorem cdidParse_render_witness :
    zeroCDID.wf ∧ cdidParse zeroCDID.render = some zeroCDID :=
  ⟨by decide, cdidParse_render zeroCDID (by decide)⟩

/-! ## C9: Parse on non-16-byte decodings -/

/-- C9 (code bug): the string `"00"` decodes successfully to the single
byte `[0]` (length ≠ 16), yet `Parse` returns the zero CDID with a nil
error instead of rejecting the input: `cdidParse "00" = some zeroCDID`,
not an error (`none`). -/
theorem cdidParse_short_input_accepted :
    b32decode "00".toList = some [0] ∧ cdidParse "00" = some zeroCDID := by
  constructor
  · decide
  · decide

/-! ## C1: GetRecentItems post-conditions -/

theorem dedupByResourceID_subset (l : List TimelineItem) (seen : List String) :
    ∀ x ∈ dedupByResourceID l seen, x ∈ l := by
  induction l generalizing seen with
  | nil => simp [dedupByResourceID]
  | cons y ys ih =>
    intro x hx
    cases hcon : seen.contains y.resourceID with
    | true =>
      simp only [dedupByResourceID, hcon, if_pos] at hx
      exact List.mem_cons_of_mem _ (ih seen x hx)
    | false =>
      simp only [dedupByResourceID, hcon, Bool.false_eq_true, if_neg,
        not_false_eq_true, List.mem_cons] at hx
      rcases hx with rfl | hx
      · exact List.mem_cons_self _ _
      · exact List.mem_cons_of_mem _ (ih _ x hx)

theorem dedupByResourceID_not_seen (l : List TimelineItem) :
    ∀ (seen : List String) (x : TimelineItem),
      x ∈ dedupByResourceID l seen → x.resourceID ∉ seen := by
  induction l with
  | nil => intro seen x hx; simp [dedupByResourceID] at hx
  | cons y ys ih =>
    intro seen x hx
    cases hcon : seen.contains y.resourceID with
    | true =>
      simp only [dedupByResourceID, hcon, if_pos] at hx
      exact ih seen x hx
    | false =>
      simp only [dedupByResourceID, hcon, Bool.false_eq_true, if_neg,
        not_false_eq_true, List.mem_cons] at hx
      rcases hx with rfl | hx
      · intro hmem
        exact absurd hmem (by simpa using hcon)
      · intro hmem
        exact ih _ x hx (List.mem_cons_of_mem _ hmem)

theorem dedupByResourceID_nodup (l : List TimelineItem) :
    ∀ seen : List String,
      ((dedupByResourceID l seen).map (·.resourceID)).Nodup := by
  induction l with
  | nil => intro seen; simp [dedupByResourceID]
  | cons y ys ih =>
    intro seen
    cases hcon : seen.contains y.resourceID with
    | true => simp only [dedupByResourceID, hcon, if_pos]; exact ih seen
    | false =>
      simp only [dedupByResourceID, hcon, Bool.false_eq_true, if_neg,
        not_false_eq_true, List.map_cons]
      refine List.Nodup.cons ?_ (ih _)
      intro hmem
      rcases List.mem_map.1 hmem with ⟨x, hx, hid⟩
      exact dedupByResourceID_not_seen ys _ x hx (by simp [hid])

theorem summarizePhase_ok (items : List (String × Chunk)) (untl limit : Int)
    (res : List TimelineItem) (h : summarizePhase items untl limit = .ok res) :
    (∀ i ∈ res, i.cDate ≤ untl) ∧ List.Pairwise byCDateDesc res ∧
    (res.map (·.resourceID)).Nodup ∧ (res.length : Int) ≤ limit := by
  unfold summarizePhase at h
  by_cases hl : limit < 0
  · rw [if_pos hl] at h
    cases h
  · rw [if_neg hl] at h
    simp only [GoResult.ok.injEq] at h
    subst h
    set msgs := ((items.map (fun p => p.2.items)).flatten).filter
      (fun i => decide (i.cDate ≤ untl)) with hmsgs
    have hperm := List.perm_insertionSort byCDateDesc (dedupByResourceID msgs [])
    refine ⟨?_, ?_, ?_, ?_⟩
    · intro i hi
      have hi' := (List.take_sublist _ _).mem hi
      have hi'' : i ∈ dedupByResourceID msgs [] := hperm.mem_iff.1 hi'
      have hi3 := dedupByResourceID_subset _ _ i hi''
      rw [hmsgs] at hi3
      exact of_decide_eq_true (List.mem_filter.1 hi3).2
    · exact List.Pairwise.sublist (List.take_sublist _ _)
        (List.sorted_insertionSort byCDateDesc _)
    · have hnd : ((sortByCDateDesc (dedupByResourceID msgs [])).map
          (·.resourceID)).Nodup :=
        ((hperm.map (·.resourceID)).nodup_iff).2 (dedupByResourceID_nodup msgs [])
      rw [List.map_take]
      exact List.Nodup.sublist (List.take_sublist _ _) hnd
    · have hlen := List.length_take_le limit.toNat
        (sortByCDateDesc (dedupByResourceID msgs []))
      have h0 : (0:Int) ≤ limit := le_of_not_lt hl
      omega

/-- C1 (amended): for every call `GetRecentItems(ts, u, l)` that returns
a list, every returned item `i` satisfies `i.CDate ≤ u`; the list is
sorted by `CDate` descending, contains at most one item per
`ResourceID`, and has length at most `l`.  (The original claim's further
conjunct — that `i.TimelineID` is one of the normalized forms of `ts` —
is false on the code: items served from the local DB carry
`<26-char-id>@<fqdn>` without the `t` typed-id marker; see the
counterexample.) -/
theorem getRecentItems_amended (d : TLDeps) (ts : List String)
    (untl limit : Int) (res : List TimelineItem)
    (h : getRecentItems d ts untl limit = .ok res) :
    (∀ i ∈ res, i.cDate ≤ untl) ∧ List.Pairwise byCDateDesc res ∧
    (res.map (·.resourceID)).Nodup ∧ (res.length : Int) ≤ limit := by
  unfold getRecentItems at h
  split at h
  · cases h
  · split at h
    · cases h
    · exact summarizePhase_ok _ _ _ _ h

/-- Witness for C1 at the concrete one-timeline scenario. -/
theorem getRecentItems_amended_witness :
    (∀ i ∈ [itemC1fq], i.cDate ≤ (5:Int)) ∧
    List.Pairwise byCDateDesc [itemC1fq] ∧
    ([itemC1fq].map (·.resourceID)).Nodup ∧
    (([itemC1fq].length : Int) ≤ 10) :=
  getRecentItems_amended depsC1 ["t" ++ tlID26] 5 10 [itemC1fq] (by decide)

/-- C1 counterexample: with one local timeline `t<26>` holding a single
item, `GetRecentItems` returns the item with
`TimelineID = "<26>@local.ex"`, while the only normalized form of the
requested timelines is `"t<26>@local.ex"` — so the returned
`TimelineID` is not one of the normalized forms of `ts`. -/
theorem getRecentItems_timelineID_counterexample :
    getRecentItems depsC1 ["t" ++ tlID26] 5 10 = .ok [itemC1fq] ∧
    normPhase depsC1 ["t" ++ tlID26] =
      (["t" ++ tlID26 ++ "@local.ex"],
       [("local.ex", ["t" ++ tlID26 ++ "@local.ex"])]) ∧
    itemC1fq.timelineID ≠ "t" ++ tlID26 ++ "@local.ex" := by
  refine ⟨by decide, by decide, by decide⟩

/-! ## C5: loadLocalBody on an empty epoch -/

/-- C5 (code bug): `loadLocalBody` evaluates `items[len(items)-1]` on the
result of the first query without checking emptiness; for a timeline
with no items at or before the epoch end the Go code indexes an empty
slice at `-1` and panics, contradicting the claim that the load is
well-defined for every timeline and epoch. -/
theorem loadLocalBody_empty_epoch_panics :
    loadLocalBody [] (fun _ => 10) (fun c => c ++ "p") "local.ex"
      ("t" ++ tlID26 ++ "@local.ex") "ch" = .panic := by decide

/-! ## C2: the PostItem write gate -/

theorem postItemTrivialGate {σ : Type} (d : PostDeps σ) (timeline : String)
    (item : TimelineItem) (st : σ) :
    (((none : Option TimelineItem).isSome ∨ st ≠ st) →
      resolvedTimelineHost d timeline = some d.fqdn ∧
      distributeAllowed d timeline item = true) ∧
    (distributeAllowed d timeline item = false →
      (none : Option TimelineItem) = none ∧ st = st) ∧
    (∀ hst, resolvedTimelineHost d timeline = some hst → hst ≠ d.fqdn →
      (none : Option TimelineItem) = none ∧ st = st) ∧
    (resolvedTimelineHost d timeline = none →
      (none : Option TimelineItem) = none ∧ st = st) := by
  refine ⟨?_, fun _ => ⟨rfl, rfl⟩, fun _ _ _ => ⟨rfl, rfl⟩, fun _ => ⟨rfl, rfl⟩⟩
  intro hcon
  rcases hcon with hcon | hcon
  · simp at hcon
  · exact absurd rfl hcon

/-- C2: `PostItem` calls `repo.CreateItem` only when the resolved target
domain equals the local FQDN and the `timeline.distribute` policy
summary allows the write; in every other case it returns an error and
leaves the repository state unchanged.  `res.isSome ∨ st' ≠ st` captures
"an item was created": `createItem` is the only state-changing call and
the only source of a non-error return. -/
theorem postItem_gate {σ : Type} (d : PostDeps σ) (st : σ) (timeline : String)
    (item : TimelineItem) (res : Option TimelineItem) (st' : σ)
    (h : postItem d st timeline item = (res, st')) :
    ((res.isSome ∨ st' ≠ st) →
      resolvedTimelineHost d timeline = some d.fqdn ∧
      distributeAllowed d timeline item = true) ∧
    (distributeAllowed d timeline item = false → res = none ∧ st' = st) ∧
    (∀ hst, resolvedTimelineHost d timeline = some hst → hst ≠ d.fqdn →
      res = none ∧ st' = st) ∧
    (resolvedTimelineHost d timeline = none → res = none ∧ st' = st) := by
  unfold postItem at h
  split at h
  · injection h with h1 h2
    subst h1; subst h2
    exact postItemTrivialGate d timeline item st
  · rename_i hq
    split at h
    · injection h with h1 h2
      subst h1; subst h2
      exact postItemTrivialGate d timeline item st
    · rename_i timelineHost hres
      have hrth : resolvedTimelineHost d timeline = some timelineHost := by
        unfold resolvedTimelineHost
        rw [if_neg hq]
        exact hres
      split at h
      · injection h with h1 h2
        subst h1; subst h2
        exact postItemTrivialGate d timeline item st
      · rename_i timelineID2 hsem
        split at h
        · injection h with h1 h2
          subst h1; subst h2
          exact postItemTrivialGate d timeline item st
        · rename_i hhost
          have hfq : timelineHost = d.fqdn := not_not.mp hhost
          split at h
          · injection h with h1 h2
            subst h1; subst h2
            exact postItemTrivialGate d timeline item st
          · rename_i tl htl
            split at h
            · injection h with h1 h2
              subst h1; subst h2
              exact postItemTrivialGate d timeline item st
            · rename_i hsum
              have hall : distributeAllowed d timeline item = true := by
                simp only [distributeAllowed, hrth, hsem, htl]
                exact not_not.mp hsum
              refine ⟨fun _ => ⟨by rw [hrth, hfq], hall⟩, ?_, ?_, ?_⟩
              · intro hfalse
                rw [hall] at hfalse
                cases hfalse
              · intro hst hsome hne
                exfalso
                apply hne
                rw [hrth] at hsome
                injection hsome with e
                rw [← e, hfq]
              · intro hnone
                rw [hrth] at hnone
                cases hnone

/-- Witness for C2 at a concrete successful local post. -/
theorem postItem_gate_witness :
    resolvedTimelineHost postDepsW ("t" ++ tlID26 ++ "@local.ex") =
      some "local.ex" ∧
    distributeAllowed postDepsW ("t" ++ tlID26 ++ "@local.ex") itemW = true :=
  (postItem_gate postDepsW [] ("t" ++ tlID26 ++ "@local.ex") itemW
    (some itemW) [itemW] (by decide)).1 (Or.inl (by decide))

/-! ## C3: Commit dispatcher -/

/-- C3 (amended): `Commit` validates the signature before any per-type
service call and leaves the state untouched when parsing or validation
fails; a document whose `Type` is outside the dispatched set is an
error; a `delete` document with a nonempty `Target` is routed by its
first character (`m`, `a`, `p`, `t`), any other nonempty first character
is an error — but an empty `Target` makes `Commit` panic
(`doc.Target[0]` out of range) rather than return an error. -/
theorem commit_dispatch {σ : Type} (d : StoreDeps σ) (st : σ)
    (document signature opt : String) :
    (d.parseBase document = none →
      commit d st document signature opt = (.err, st)) ∧
    (∀ base, d.parseBase document = some base →
      d.validateDocument document signature = none →
      commit d st document signature opt = (.err, st)) ∧
    (∀ base, d.parseBase document = some base →
      d.validateDocument document signature = some () →
      base.type ∉ (["message", "association", "profile", "affiliation",
        "tombstone", "timeline", "ack", "unack", "subscription",
        "subscribe", "unsubscribe", "delete"] : List String) →
      commit d st document signature opt = (.err, st)) ∧
    (∀ base doc, d.parseBase document = some base →
      d.validateDocument document signature = some () →
      base.type = "delete" → d.parseDelete document = some doc →
      (goFirst doc.target = none →
        commit d st document signature opt = (.panic, st)) ∧
      (∀ c, goFirst doc.target = some c →
        c ∉ (['m', 'a', 'p', 't'] : List Char) →
        commit d st document signature opt = (.err, st)) ∧
      (goFirst doc.target = some 'm' →
        commit d st document signature opt =
          d.messageDelete st document signature) ∧
      (goFirst doc.target = some 'a' →
        commit d st document signature opt =
          d.associationDelete st document signature) ∧
      (goFirst doc.target = some 'p' →
        commit d st document signature opt = d.profileDelete st document) ∧
      (goFirst doc.target = some 't' →
        commit d st document signature opt = d.deleteTimeline st document)) := by
  refine ⟨?_, ?_, ?_, ?_⟩
  · intro hp
    simp only [commit, hp]
  · intro base hp hv
    simp only [commit, hp, hv]
  · intro base hp hv hmem
    simp only [List.mem_cons, List.not_mem_nil, or_false, not_or] at hmem
    obtain ⟨h1, h2, h3, h4, h5, h6, h7, h8, h9, h10, h11, h12⟩ := hmem
    simp only [commit, hp, hv]
    rw [if_neg h1, if_neg h2, if_neg h3, if_neg h4, if_neg h5, if_neg h6,
      if_neg (not_or.mpr ⟨h7, h8⟩), if_neg h9, if_neg h10, if_neg h11,
      if_neg h12]
  · intro base doc hp hv htype hpd
    have n1 : ¬ base.type = "message" := by rw [htype]; decide
    have n2 : ¬ base.type = "association" := by rw [htype]; decide
    have n3 : ¬ base.type = "profile" := by rw [htype]; decide
    have n4 : ¬ base.type = "affiliation" := by rw [htype]; decide
    have n5 : ¬ base.type = "tombstone" := by rw [htype]; decide
    have n6 : ¬ base.type = "timeline" := by rw [htype]; decide
    have n7 : ¬ (base.type = "ack" ∨ base.type = "unack") := by
      rw [htype]; decide
    have n8 : ¬ base.type = "subscription" := by rw [htype]; decide
    have n9 : ¬ base.type = "subscribe" := by rw [htype]; decide
    have n10 : ¬ base.type = "unsubscribe" := by rw [htype]; decide
    refine ⟨?_, ?_, ?_, ?_, ?_, ?_⟩
    · intro hchar
      simp only [commit, hp, hv]
      rw [if_neg n1, if_neg n2, if_neg n3, if_neg n4, if_neg n5, if_neg n6,
        if_neg n7, if_neg n8, if_neg n9, if_neg n10, if_pos htype]
      simp only [hpd, hchar]
    · intro c hchar hcmem
      simp only [List.mem_cons, List.not_mem_nil, or_false, not_or] at hcmem
      obtain ⟨c1, c2, c3, c4⟩ := hcmem
      simp only [commit, hp, hv]
      rw [if_neg n1, if_neg n2, if_neg n3, if_neg n4, if_neg n5, if_neg n6,
        if_neg n7, if_neg n8, if_neg n9, if_neg n10, if_pos htype]
      simp only [hpd, hchar]
      rw [if_neg c1, if_neg c2, if_neg c3, if_neg c4]
    · intro hchar
      simp only [commit, hp, hv]
      rw [if_neg n1, if_neg n2, if_neg n3, if_neg n4, if_neg n5, if_neg n6,
        if_neg n7, if_neg n8, if_neg n9, if_neg n10, if_pos htype]
      simp only [hpd, hchar]
      simp
    · intro hchar
      simp only [commit, hp, hv]
      rw [if_neg n1, if_neg n2, if_neg n3, if_neg n4, if_neg n5, if_neg n6,
        if_neg n7, if_neg n8, if_neg n9, if_neg n10, if_pos htype]
      simp only [hpd, hchar]
      simp
    · intro hchar
      simp only [commit, hp, hv]
      rw [if_neg n1, if_neg n2, if_neg n3, if_neg n4, if_neg n5, if_neg n6,
        if_neg n7, if_neg n8, if_neg n9, if_neg n10, if_pos htype]
      simp only [hpd, hchar]
      simp
    · intro hchar
      simp only [commit, hp, hv]
      rw [if_neg n1, if_neg n2, if_neg n3, if_neg n4, if_neg n5, if_neg n6,
        if_neg n7, if_neg n8, if_neg n9, if_neg n10, if_pos htype]
      simp only [hpd, hchar]
      simp

/-- Witness for C3: a non-parsing document at concrete dependencies. -/
theorem commit_dispatch_witness :
    commit storeDepsW [] "nonsense" "sig" "" = (.err, []) :=
  (commit_dispatch storeDepsW [] "nonsense" "sig" "").1 (by decide)

/-- C3 counterexample: a `delete` document whose `Target` is empty makes
`Commit` panic on `doc.Target[0]` instead of returning an error, so "any
other target prefix is an error" fails for the empty target. -/
theorem commit_empty_delete_target_panics :
    commit storeDepsW [] "docDel" "sig" "" = (.panic, []) ∧
    (GoResult.panic : GoResult Unit) ≠ .err := by
  refine ⟨by decide, by decide⟩

/-! ## Upsert-row lemmas -/

theorem upsertByID_find {α : Type} (key : α → String) (es : List α) (e : α) :
    (upsertByID key es e).find? (fun r => key r == key e) = some e := by
  induction es with
  | nil => simp [upsertByID, List.find?]
  | cons r rs ih =>
    by_cases hr : (key r == key e) = true
    · simp [upsertByID, hr, List.find?]
    · simp only [upsertByID, hr, Bool.false_eq_true, if_neg,
        not_false_eq_true, List.find?]
      exact ih

theorem upsertByID_idem {α : Type} (key : α → String) (es : List α) (e : α) :
    upsertByID key (upsertByID key es e) e = upsertByID key es e := by
  induction es with
  | nil => simp [upsertByID]
  | cons r rs ih =>
    by_cases hr : (key r == key e) = true
    · simp [upsertByID, hr]
    · simp only [upsertByID, hr, Bool.false_eq_true, if_neg,
        not_false_eq_true]
      rw [ih]

theorem upsertByID_append {α : Type} (key : α → String) (es : List α) (e : α)
    (h : ∀ r ∈ es, (key r == key e) = false) :
    upsertByID key es e = es ++ [e] := by
  induction es with
  | nil => rfl
  | cons r rs ih =>
    have hr := h r (by simp)
    simp only [upsertByID, hr, Bool.false_eq_true, if_neg, not_false_eq_true,
      List.cons_append, List.cons.injEq, true_and]
    exact ih (fun x hx => h x (by simp [hx]))

/-- The renewed remote entity computed from an already-renewed row is
that row itself. -/
theorem remoteAffiliationEntity_rerun (doc : AffiliationDocument)
    (document signature : String) (existing : Option Entity) :
    remoteAffiliationEntity doc document signature
      (some (remoteAffiliationEntity doc document signature existing)) =
      remoteAffiliationEntity doc document signature existing := rfl

/-! ## C10: the option string is parsed before the registration switch -/

/-- C10: for a local affiliation (document `Domain` equal to the local
FQDN) of a new signer, a malformed (e.g. empty) option string makes
`Affiliation` return an error and create no entity, even with open
registration and no captcha site key: the option JSON is parsed before
the registration mode is consulted. -/
theorem affiliation_option_gate (d : EntDeps) (st : EntState)
    (document signature opt : String) (doc : AffiliationDocument)
    (hp : d.parseAffiliation document = some doc)
    (hget : entGet st.entities doc.signer = none)
    (hdom : doc.domain = d.fqdn)
    (hsite : d.siteKey = "")
    (_hreg : d.registration = "open")
    (hopt : d.parseOption opt = none) :
    affiliation d st document signature opt = (none, st) := by
  simp only [affiliation, hp, hget, affiliationBody, if_pos hdom]
  rw [if_neg (by simp [hsite])]
  simp only [hopt]

/-- Witness for C10: an empty option string on a fresh local signer. -/
theorem affiliation_option_gate_witness :
    affiliation entDepsO entState0 "docL" "sig" "" = (none, entState0) :=
  affiliation_option_gate entDepsO entState0 "docL" "sig" ""
    ⟨"con1u", "local.ex", 100⟩ (by decide) (by decide) (by decide) (by decide)
    (by decide) (by decide)

/-! ## C7: remote affiliation preserves Tag, Score, IsScoreFixed -/

/-- C7: a remote affiliation (document `Domain` different from the local
FQDN) applied to a signer whose entity exists locally — and whose stored
affiliation is not strictly newer — upserts an entity that keeps the
stored `Tag`, `Score` and `IsScoreFixed` while `AffiliationDocument`,
`AffiliationSignature` and `Domain` are replaced by the incoming
values. -/
theorem affiliation_remote_frame (d : EntDeps) (st : EntState)
    (document signature opt : String) (doc ea : AffiliationDocument)
    (e : Entity)
    (hp : d.parseAffiliation document = some doc)
    (hdom : doc.domain ≠ d.fqdn)
    (hget : entGet st.entities doc.signer = some e)
    (hea : d.parseAffiliation e.affiliationDocument = some ea)
    (hnew : ¬ doc.signedAt < ea.signedAt) :
    affiliation d st document signature opt =
      (some (remoteAffiliationEntity doc document signature (some e)),
       { st with entities := (upsertEntityRow st.entities
           (remoteAffiliationEntity doc document signature (some e))) }) ∧
    (remoteAffiliationEntity doc document signature (some e)).tag = e.tag ∧
    (remoteAffiliationEntity doc document signature (some e)).score = e.score ∧
    (remoteAffiliationEntity doc document signature (some e)).isScoreFixed =
      e.isScoreFixed ∧
    (remoteAffiliationEntity doc document signature
      (some e)).affiliationDocument = document ∧
    (remoteAffiliationEntity doc document signature
      (some e)).affiliationSignature = signature ∧
    (remoteAffiliationEntity doc document signature (some e)).domain =
      doc.domain := by
  refine ⟨?_, rfl, rfl, rfl, rfl, rfl, rfl⟩
  simp only [affiliation, hp, hget, hea, if_neg hnew, affiliationBody,
    if_neg hdom]

/-- Witness for C7 at a stored entity with tag `"vip"` and score 7. -/
theorem affiliation_remote_frame_witness :
    affiliation entDepsO entStateR "docR" "sig" "opt" =
      (some (remoteAffiliationEntity ⟨"con1u", "remote.ex", 100⟩ "docR" "sig"
        (some entR)),
       { entStateR with entities := (upsertEntityRow entStateR.entities
           (remoteAffiliationEntity ⟨"con1u", "remote.ex", 100⟩ "docR" "sig"
             (some entR))) }) ∧
    (remoteAffiliationEntity ⟨"con1u", "remote.ex", 100⟩ "docR" "sig"
      (some entR)).tag = entR.tag ∧
    (remoteAffiliationEntity ⟨"con1u", "remote.ex", 100⟩ "docR" "sig"
      (some entR)).score = entR.score ∧
    (remoteAffiliationEntity ⟨"con1u", "remote.ex", 100⟩ "docR" "sig"
      (some entR)).isScoreFixed = entR.isScoreFixed ∧
    (remoteAffiliationEntity ⟨"con1u", "remote.ex", 100⟩ "docR" "sig"
      (some entR)).affiliationDocument = "docR" ∧
    (remoteAffiliationEntity ⟨"con1u", "remote.ex", 100⟩ "docR" "sig"
      (some entR)).affiliationSignature = "sig" ∧
    (remoteAffiliationEntity ⟨"con1u", "remote.ex", 100⟩ "docR" "sig"
      (some entR)).domain = "remote.ex" :=
  affiliation_remote_frame entDepsO entStateR "docR" "sig" "opt"
    ⟨"con1u", "remote.ex", 100⟩ ⟨"con1u", "remote.ex", 50⟩ entR (by decide)
    (by decide) (by decide) (by decide) (by decide)

/-! ## C4: Affiliation idempotence -/

theorem entGet_upsert_self (es : List Entity) (e : Entity) :
    entGet (upsertEntityRow es e) e.id = some e := by
  unfold entGet upsertEntityRow
  exact upsertByID_find (fun r => r.id) es e

theorem filter_upsert_single (es : List Entity) (e : Entity)
    (h : es.find? (·.id == e.id) = none) :
    ((upsertEntityRow es e).filter (·.id == e.id)).length = 1 := by
  have hall : ∀ r ∈ es, (r.id == e.id) = false := by
    intro r hr
    have := List.find?_eq_none.mp h r hr
    simpa using this
  unfold upsertEntityRow
  rw [upsertByID_append (fun r => r.id) es e hall]
  rw [List.filter_append]
  have h1 : es.filter (·.id == e.id) = [] := by
    rw [List.filter_eq_nil_iff]
    intro r hr
    simp [hall r hr]
  rw [h1]
  simp

/-- All success branches of `affiliationBody` on a fresh signer upsert a
single entity row keyed by the document's signer. -/
theorem affiliationBody_fresh_shape (d : EntDeps) (st : EntState)
    (document signature opt : String) (doc : AffiliationDocument)
    (e : Entity) (st1 : EntState)
    (hbody : affiliationBody d st document signature opt doc none =
      (some e, st1)) :
    e.id = doc.signer ∧ st1.entities = upsertEntityRow st.entities e := by
  unfold affiliationBody at hbody
  by_cases hdom : doc.domain = d.fqdn
  · rw [if_pos hdom] at hbody
    by_cases hcap : d.siteKey ≠ "" ∧ d.captchaVerified ≠ some true
    · rw [if_pos hcap] at hbody
      simp at hbody
    · rw [if_neg hcap] at hbody
      cases hopt : d.parseOption opt with
      | none => simp [hopt] at hbody
      | some opts =>
        simp only [hopt] at hbody
        by_cases hro : d.registration = "open"
        · rw [if_pos hro] at hbody
          rw [Prod.mk.injEq, Option.some.injEq] at hbody
          obtain ⟨he, hst⟩ := hbody
          subst he; subst hst
          exact ⟨rfl, rfl⟩
        · rw [if_neg hro] at hbody
          by_cases hri : d.registration = "invite"
          · rw [if_pos hri] at hbody
            by_cases hie : opts.invitation = ""
            · rw [if_pos hie] at hbody; simp at hbody
            · rw [if_neg hie] at hbody
              cases hjwt : d.jwtValidate opts.invitation with
              | none => simp [hjwt] at hbody
              | some claims =>
                simp only [hjwt] at hbody
                by_cases hsub : claims.subject ≠ "CONCRNT_INVITE"
                · rw [if_pos hsub] at hbody; simp at hbody
                · rw [if_neg hsub] at hbody
                  by_cases hcont : st.jtis.contains claims.jwtID
                  · rw [if_pos hcont] at hbody; simp at hbody
                  · rw [if_neg hcont] at hbody
                    cases hchk : inviteIssuerCheck d st claims.issuer with
                    | none => simp [hchk] at hbody
                    | some u =>
                      simp only [hchk] at hbody
                      cases hpi : d.parseInt claims.expirationTime with
                      | none => simp [hpi] at hbody
                      | some n =>
                        simp only [hpi] at hbody
                        rw [Prod.mk.injEq, Option.some.injEq] at hbody
                        obtain ⟨he, hst⟩ := hbody
                        subst he; subst hst
                        exact ⟨rfl, rfl⟩
          · rw [if_neg hri] at hbody; simp at hbody
  · rw [if_neg hdom] at hbody
    rw [Prod.mk.injEq, Option.some.injEq] at hbody
    obtain ⟨he, hst⟩ := hbody
    subst he; subst hst
    exact ⟨rfl, rfl⟩

theorem upsertEntityRow_idem (es : List Entity) (e : Entity) :
    upsertEntityRow (upsertEntityRow es e) e = upsertEntityRow es e :=
  upsertByID_idem _ es e

theorem upsertMetaRow_idem (ms : List EntityMeta) (m : EntityMeta) :
    upsertMetaRow (upsertMetaRow ms m) m = upsertMetaRow ms m :=
  upsertByID_idem _ ms m

/-- Re-running `Affiliation` on the state a successful open-registration
or remote body run produced returns the same entity and leaves the state
fixed. -/
theorem affiliationBody_rerun (d : EntDeps) (st : EntState)
    (document signature opt : String) (doc : AffiliationDocument)
    (existing : Option Entity) (e : Entity) (st1 : EntState)
    (hp : d.parseAffiliation document = some doc)
    (hreg : doc.domain = d.fqdn → d.registration = "open")
    (hbody : affiliationBody d st document signature opt doc existing =
      (some e, st1)) :
    affiliation d st1 document signature opt = (some e, st1) := by
  unfold affiliationBody at hbody
  by_cases hdom : doc.domain = d.fqdn
  · rw [if_pos hdom] at hbody
    have hro := hreg hdom
    by_cases hcap : d.siteKey ≠ "" ∧ d.captchaVerified ≠ some true
    · rw [if_pos hcap] at hbody; simp at hbody
    · rw [if_neg hcap] at hbody
      cases hopt : d.parseOption opt with
      | none => simp [hopt] at hbody
      | some opts =>
        simp only [hopt] at hbody
        rw [if_pos hro] at hbody
        rw [Prod.mk.injEq, Option.some.injEq] at hbody
        obtain ⟨he, hst⟩ := hbody
        subst he
        subst hst
        have hget2 : entGet
            (upsertEntityRow st.entities
              (localAffiliationEntity doc document signature)) doc.signer =
            some (localAffiliationEntity doc document signature) :=
          entGet_upsert_self st.entities _
        have hpe : d.parseAffiliation
            (localAffiliationEntity doc document signature).affiliationDocument
            = some doc := hp
        simp only [affiliation, hp, hget2, hpe, lt_self_iff_false,
          if_neg (lt_irrefl doc.signedAt), affiliationBody, if_pos hdom,
          if_neg hcap, hopt, if_pos hro, Prod.mk.injEq, Option.some.injEq,
          EntState.mk.injEq, upsertEntityRow_idem, upsertMetaRow_idem,
          and_self, not_false_eq_true, if_false]
  · rw [if_neg hdom] at hbody
    rw [Prod.mk.injEq, Option.some.injEq] at hbody
    obtain ⟨he, hst⟩ := hbody
    subst he
    subst hst
    have hget2 : entGet
        (upsertEntityRow st.entities
          (remoteAffiliationEntity doc document signature existing))
        doc.signer =
        some (remoteAffiliationEntity doc document signature existing) :=
      entGet_upsert_self st.entities _
    have hpe : d.parseAffiliation
        (remoteAffiliationEntity doc document signature
          existing).affiliationDocument = some doc := hp
    simp only [affiliation, hp, hget2, hpe, lt_self_iff_false,
      if_neg (lt_irrefl doc.signedAt), affiliationBody, if_neg hdom,
      remoteAffiliationEntity_rerun, Prod.mk.injEq, Option.some.injEq,
      EntState.mk.injEq, upsertEntityRow_idem, and_self, not_false_eq_true,
      if_false]

/-- Re-running `Affiliation` on the state a successful invite
registration produced fails: the JTI was consumed. -/
theorem affiliation_invite_rerun (d : EntDeps) (st : EntState)
    (document signature opt : String) (doc : AffiliationDocument)
    (e : Entity) (st1 : EntState)
    (hp : d.parseAffiliation document = some doc)
    (hdom : doc.domain = d.fqdn)
    (hinv : d.registration = "invite")
    (hget0 : entGet st.entities doc.signer = none)
    (h1 : affiliation d st document signature opt = (some e, st1)) :
    affiliation d st1 document signature opt = (none, st1) := by
  simp only [affiliation, hp, hget0] at h1
  unfold affiliationBody at h1
  rw [if_pos hdom] at h1
  by_cases hcap : d.siteKey ≠ "" ∧ d.captchaVerified ≠ some true
  · rw [if_pos hcap] at h1; simp at h1
  · rw [if_neg hcap] at h1
    cases hopt : d.parseOption opt with
    | none => simp [hopt] at h1
    | some opts =>
      simp only [hopt] at h1
      have hno : ¬ d.registration = "open" := by rw [hinv]; decide
      rw [if_neg hno, if_pos hinv] at h1
      by_cases hie : opts.invitation = ""
      · rw [if_pos hie] at h1; simp at h1
      · rw [if_neg hie] at h1
        cases hjwt : d.jwtValidate opts.invitation with
        | none => simp [hjwt] at h1
        | some claims =>
          simp only [hjwt] at h1
          by_cases hsub : claims.subject ≠ "CONCRNT_INVITE"
          · rw [if_pos hsub] at h1; simp at h1
          · rw [if_neg hsub] at h1
            by_cases hcont : st.jtis.contains claims.jwtID
            · rw [if_pos hcont] at h1; simp at h1
            · rw [if_neg hcont] at h1
              cases hchk : inviteIssuerCheck d st claims.issuer with
              | none => simp [hchk] at h1
              | some u =>
                simp only [hchk] at h1
                cases hpi : d.parseInt claims.expirationTime with
                | none => simp [hpi] at h1
                | some n =>
                  simp only [hpi] at h1
                  rw [Prod.mk.injEq, Option.some.injEq] at h1
                  obtain ⟨he, hst⟩ := h1
                  subst he
                  subst hst
                  have hget2 : entGet
                      (upsertEntityRow st.entities
                        (localAffiliationEntity doc document signature))
                      doc.signer =
                      some (localAffiliationEntity doc document signature) :=
                    entGet_upsert_self st.entities _
                  have hpe : d.parseAffiliation
                      (localAffiliationEntity doc document
                        signature).affiliationDocument = some doc := hp
                  have hcont2 : (st.jtis ++ [claims.jwtID]).contains
                      claims.jwtID = true := by simp
                  simp only [affiliation, hp, hget2, hpe, lt_self_iff_false,
                    if_neg (lt_irrefl doc.signedAt), if_false]
                  unfold affiliationBody
                  rw [if_pos hdom, if_neg hcap]
                  simp only [hopt]
                  rw [if_neg hno, if_pos hinv, if_neg hie]
                  simp only [hjwt]
                  rw [if_neg hsub]
                  simp [hcont2]

/-- C4 (amended): newer-wins no-op; applying the same
`(Signer, SignedAt)` document twice yields one row; outside invite
registration the second application returns the same entity with the
state fixed, while under invite registration the second application
returns an error with the state fixed (the invitation JTI was consumed
by the first application). -/
theorem affiliation_newer_wins_idempotence :
    (∀ (d : EntDeps) (st : EntState) (document signature opt : String)
        (doc ea : AffiliationDocument) (e : Entity),
      d.parseAffiliation document = some doc →
      entGet st.entities doc.signer = some e →
      d.parseAffiliation e.affiliationDocument = some ea →
      doc.signedAt < ea.signedAt →
      affiliation d st document signature opt = (some e, st)) ∧
    (∀ (d : EntDeps) (st st1 : EntState) (document signature opt : String)
        (doc : AffiliationDocument) (e : Entity),
      d.parseAffiliation document = some doc →
      (doc.domain = d.fqdn → d.registration = "open") →
      affiliation d st document signature opt = (some e, st1) →
      affiliation d st1 document signature opt = (some e, st1)) ∧
    (∀ (d : EntDeps) (st st1 : EntState) (document signature opt : String)
        (doc : AffiliationDocument) (e : Entity),
      d.parseAffiliation document = some doc →
      doc.domain = d.fqdn → d.registration = "invite" →
      entGet st.entities doc.signer = none →
      affiliation d st document signature opt = (some e, st1) →
      affiliation d st1 document signature opt = (none, st1)) ∧
    (∀ (d : EntDeps) (st st1 : EntState) (document signature opt : String)
        (doc : AffiliationDocument) (e : Entity),
      d.parseAffiliation document = some doc →
      entGet st.entities doc.signer = none →
      affiliation d st document signature opt = (some e, st1) →
      (st1.entities.filter (·.id == doc.signer)).length = 1) := by
  refine ⟨?_, ?_, ?_, ?_⟩
  · intro d st document signature opt doc ea e hp hget hea hlt
    simp only [affiliation, hp, hget, hea, if_pos hlt]
  · intro d st st1 document signature opt doc e hp hreg h1
    simp only [affiliation, hp] at h1
    cases hget : entGet st.entities doc.signer with
    | some existence =>
      simp only [hget] at h1
      cases hea : d.parseAffiliation existence.affiliationDocument with
      | none => simp [hea] at h1
      | some ea =>
        simp only [hea] at h1
        by_cases hlt : doc.signedAt < ea.signedAt
        · rw [if_pos hlt] at h1
          rw [Prod.mk.injEq, Option.some.injEq] at h1
          obtain ⟨he, hst⟩ := h1
          subst he
          subst hst
          simp only [affiliation, hp, hget, hea, if_pos hlt]
        · rw [if_neg hlt] at h1
          exact affiliationBody_rerun d st document signature opt doc
            (some existence) e st1 hp hreg h1
    | none =>
      simp only [hget] at h1
      exact affiliationBody_rerun d st document signature opt doc none e st1
        hp hreg h1
  · intro d st st1 document signature opt doc e hp hdom hinv hget0 h1
    exact affiliation_invite_rerun d st document signature opt doc e st1 hp
      hdom hinv hget0 h1
  · intro d st st1 document signature opt doc e hp hget0 h1
    simp only [affiliation, hp, hget0] at h1
    obtain ⟨heid, hent⟩ :=
      affiliationBody_fresh_shape d st document signature opt doc e st1 h1
    rw [hent, ← heid]
    apply filter_upsert_single
    unfold entGet at hget0
    rw [heid]
    exact hget0

/-- Witness for C4 at the newer-wins branch. -/
theorem affiliation_newer_wins_idempotence_witness :
    affiliation entDepsO entStateR2 "docR0" "sig" "opt" =
      (some entR2, entStateR2) :=
  affiliation_newer_wins_idempotence.1 entDepsO entStateR2 "docR0" "sig" "opt"
    ⟨"con1u", "remote.ex", 50⟩ ⟨"con1u", "remote.ex", 100⟩ entR2 (by decide)
    (by decide) (by decide) (by decide)

/-- C4 counterexample: under invite registration, the same
`(Signer, SignedAt)` affiliation document applied twice yields one row
but not a stable return value — the first application returns the
registered entity, the second fails because the invitation JTI was
consumed by the first. -/
theorem affiliation_invite_not_stable :
    (affiliation entDepsInv entState0 "docA" "sig" "opt").1 =
      some (localAffiliationEntity ⟨"con1u", "local.ex", 100⟩ "docA" "sig") ∧
    affiliation entDepsInv
        (affiliation entDepsInv entState0 "docA" "sig" "opt").2
        "docA" "sig" "opt" =
      ((none : Option Entity),
       (affiliation entDepsInv entState0 "docA" "sig" "opt").2) ∧
    (((affiliation entDepsInv entState0 "docA" "sig" "opt").2).entities.filter
      (·.id == "con1u")).length = 1 := by
  refine ⟨by decide, by decide, by decide⟩

/-! ## C6: DomainOwned immutability in UpsertTimeline -/

theorem upsertByID_find_eq {α : Type} (key : α → String) (es : List α) (e : α)
    (k : String) (hk : (key e == k) = true) :
    (upsertByID key es e).find? (fun r => key r == k) = some e := by
  induction es with
  | nil => simp [upsertByID, List.find?, hk]
  | cons r rs ih =>
    cases hr : (key r == key e) with
    | true => simp [upsertByID, hr, List.find?, hk]
    | false =>
      have hrk : (key r == k) = false := by
        cases hcase : (key r == k) with
        | false => rfl
        | true =>
          have h1 : key r = k := eq_of_beq hcase
          have h2 : key e = k := eq_of_beq hk
          have : (key r == key e) = true := beq_iff_eq.mpr (by rw [h1, h2])
          rw [this] at hr
          cases hr
      simp only [upsertByID, hr, Bool.false_eq_true, if_neg,
        not_false_eq_true, List.find?, hrk]
      exact ih

theorem upsertByID_find_ne {α : Type} (key : α → String) (es : List α) (e : α)
    (k : String) (hk : (key e == k) = false) :
    (upsertByID key es e).find? (fun r => key r == k) =
      es.find? (fun r => key r == k) := by
  induction es with
  | nil => simp [upsertByID, List.find?, hk]
  | cons r rs ih =>
    cases hr : (key r == key e) with
    | true =>
      have hre : key r = key e := eq_of_beq hr
      simp [upsertByID, hr, List.find?, hk, hre]
    | false =>
      simp only [upsertByID, hr, Bool.false_eq_true, if_neg,
        not_false_eq_true, List.find?]
      cases hpr : (key r == k) with
      | true => simp [List.find?, hpr]
      | false =>
        simp only [hpr]
        exact ih

theorem postprocessTimeline_domainOwned (tl : Timeline) :
    (postprocessTimeline tl).domainOwned = tl.domainOwned := by
  unfold postprocessTimeline
  split <;> rfl

theorem semanticStep_inv (d : UTDeps) (st : TLState)
    (doc0 doc1 : TimelineDocument) (st1 : TLState)
    (hid : doc0.id ≠ "")
    (h : semanticStep d st doc0 = some (doc1, st1)) :
    doc1 = doc0 ∧ st1.timelines = st.timelines := by
  unfold semanticStep at h
  by_cases hs : doc0.semanticID = ""
  · rw [if_pos hs] at h
    rw [Option.some.injEq, Prod.mk.injEq] at h
    obtain ⟨h1, h2⟩ := h
    exact ⟨h1.symm, by rw [← h2]⟩
  · rw [if_neg hs] at h
    cases hl : lookupSem st.semantics doc0.semanticID doc0.signer with
    | none =>
      simp only [hl] at h
      rw [Option.some.injEq, Prod.mk.injEq] at h
      obtain ⟨h1, h2⟩ := h
      exact ⟨h1.symm, by rw [← h2]⟩
    | some existingID =>
      simp only [hl] at h
      cases hg : repoGetTimeline d.fqdn st.timelines existingID with
      | none =>
        simp only [hg] at h
        rw [Option.some.injEq, Prod.mk.injEq] at h
        obtain ⟨h1, h2⟩ := h
        exact ⟨h1.symm, by rw [← h2]⟩
      | some tl =>
        simp only [hg] at h
        rw [if_neg hid] at h
        by_cases he : doc0.id = existingID
        · rw [if_pos he] at h
          rw [Option.some.injEq, Prod.mk.injEq] at h
          obtain ⟨h1, h2⟩ := h
          exact ⟨h1.symm, by rw [← h2]⟩
        · rw [if_neg he] at h
          cases h

/-- The saved row of `upsertFinal` either leaves the timeline table
unchanged (preprocess failure) or replaces/inserts exactly the row built
from the document, keyed by the preprocessed id. -/
theorem upsertFinal_shape (d : UTDeps) (st : TLState)
    (docU : TimelineDocument) (document signature : String)
    (res : Option Timeline) (st1 : TLState)
    (h : upsertFinal d st docU document signature = (res, st1)) :
    st1.timelines = st.timelines ∨
    ∃ B, normalizeLocalDBID d.fqdn docU.id = some B ∧
      st1.timelines = upsertTimelineRow st.timelines
        { id := B
          indexable := docU.indexable
          author := docU.signer
          domainOwned := docU.domainOwned
          schema := docU.schema
          policy := docU.policy
          policyParams :=
            (if docU.policyParams = "" then none else some docU.policyParams)
          document := document
          signature := signature } := by
  unfold upsertFinal repoUpsertTimeline at h
  cases hnB : normalizeLocalDBID d.fqdn docU.id with
  | none =>
    simp only [hnB] at h
    rw [Prod.mk.injEq] at h
    exact Or.inl (by rw [← h.2])
  | some B =>
    simp only [hnB] at h
    rw [Prod.mk.injEq] at h
    refine Or.inr ⟨B, rfl, ?_⟩
    rw [← h.2]
    split <;> rfl

/-- C6: for every `UpsertTimeline` call whose document carries an `ID`
(the update path), the `DomainOwned` value of every stored timeline row
is unchanged by the call — the incoming document's `DomainOwned` is
overwritten with the stored one before the save; and an update whose
normalized `ID` is not owned by the local domain is rejected with the
timeline table untouched. -/
theorem upsertTimeline_domainOwned_immutable :
    (∀ (d : UTDeps) (st st1 : TLState) (document signature : String)
        (doc0 : TimelineDocument) (res : Option Timeline),
      d.parseTimelineDoc document = some doc0 → doc0.id ≠ "" →
      upsertTimeline d st document signature = (res, st1) →
      ∀ b tl0, st.timelines.find? (·.id == b) = some tl0 →
        ∃ tl1, st1.timelines.find? (·.id == b) = some tl1 ∧
          tl1.domainOwned = tl0.domainOwned) ∧
    (∀ (d : UTDeps) (st st1 : TLState) (document signature : String)
        (doc0 : TimelineDocument) (res : Option Timeline) (nid : String),
      d.parseTimelineDoc document = some doc0 → doc0.id ≠ "" →
      upsertTimeline d st document signature = (res, st1) →
      d.normalize doc0.id = some nid →
      (goSplit nid '@').getLastD "" ≠ d.fqdn →
      res = none ∧ st1.timelines = st.timelines) := by
  constructor
  · intro d st st1 document signature doc0 res hp hid h b tl0 hb
    simp only [upsertTimeline, hp] at h
    cases hsem : semanticStep d st doc0 with
    | none =>
      simp only [hsem] at h
      rw [Prod.mk.injEq] at h
      rw [← h.2]
      exact ⟨tl0, hb, rfl⟩
    | some pair =>
      obtain ⟨doc1, stsem⟩ := pair
      simp only [hsem] at h
      obtain ⟨hdoc1, eqT⟩ := semanticStep_inv d st doc0 doc1 stsem hid hsem
      rw [hdoc1] at h
      cases hent : d.entityGet doc0.signer with
      | none =>
        simp only [hent] at h
        rw [Prod.mk.injEq] at h
        rw [← h.2, eqT]
        exact ⟨tl0, hb, rfl⟩
      | some signer =>
        simp only [hent] at h
        rw [if_neg hid] at h
        cases hnor : d.normalize doc0.id with
        | none =>
          simp only [hnor] at h
          rw [Prod.mk.injEq] at h
          rw [← h.2, eqT]
          exact ⟨tl0, hb, rfl⟩
        | some nid =>
          simp only [hnor] at h
          by_cases hlast : (goSplit nid '@').getLastD "" ≠ d.fqdn
          · rw [if_pos hlast] at h
            rw [Prod.mk.injEq] at h
            rw [← h.2, eqT]
            exact ⟨tl0, hb, rfl⟩
          · rw [if_neg hlast] at h
            cases hget : repoGetTimeline d.fqdn stsem.timelines
                ((goSplit nid '@').headD "") with
            | none =>
              simp only [hget] at h
              rw [Prod.mk.injEq] at h
              rw [← h.2, eqT]
              exact ⟨tl0, hb, rfl⟩
            | some existance =>
              simp only [hget] at h
              by_cases hsum : ¬ d.summarizeUpdate (d.updatePolicy existance
                  { doc0 with
                     id := (goSplit nid '@').headD ""
                     domainOwned := existance.domainOwned } signer)
              · rw [if_pos hsum] at h
                rw [Prod.mk.injEq] at h
                rw [← h.2, eqT]
                exact ⟨tl0, hb, rfl⟩
              · rw [if_neg hsum] at h
                -- invert the repository read for the target row
                unfold repoGetTimeline at hget
                cases hnB : normalizeLocalDBID d.fqdn
                    ((goSplit nid '@').headD "") with
                | none =>
                  simp only [hnB] at hget
                  cases hget
                | some B =>
                  simp only [hnB] at hget
                  cases hfind : stsem.timelines.find? (·.id == B) with
                  | none =>
                    simp only [hfind] at hget
                    cases hget
                  | some tlB =>
                    simp only [hfind] at hget
                    rw [Option.some.injEq] at hget
                    rcases upsertFinal_shape d stsem _ document signature res
                        st1 h with hTL | ⟨B', hnB', hTL⟩
                    · rw [hTL, eqT]
                      exact ⟨tl0, hb, rfl⟩
                    · simp only at hnB' hTL
                      rw [hnB] at hnB'
                      rw [Option.some.injEq] at hnB'
                      subst hnB'
                      rw [hTL]
                      cases hbeq : (B == b) with
                      | true =>
                        have hBb : B = b := eq_of_beq hbeq
                        have hfound := upsertByID_find_eq (fun r => r.id)
                          stsem.timelines
                          ({ id := B
                             indexable := doc0.indexable
                             author := doc0.signer
                             domainOwned := existance.domainOwned
                             schema := doc0.schema
                             policy := doc0.policy
                             policyParams :=
                               (if doc0.policyParams = "" then none
                                else some doc0.policyParams)
                             document := document
                             signature := signature } : Timeline) b
                          (by simp [hBb])
                        refine ⟨_, hfound, ?_⟩
                        have h1 : tlB = tl0 := by
                          rw [eqT, hBb] at hfind
                          rw [hfind] at hb
                          exact (Option.some.injEq _ _).mp hb
                        rw [← hget, postprocessTimeline_domainOwned, h1]
                      | false =>
                        have hpres := upsertByID_find_ne (fun r => r.id)
                          stsem.timelines
                          ({ id := B
                             indexable := doc0.indexable
                             author := doc0.signer
                             domainOwned := existance.domainOwned
                             schema := doc0.schema
                             policy := doc0.policy
                             policyParams :=
                               (if doc0.policyParams = "" then none
                                else some doc0.policyParams)
                             document := document
                             signature := signature } : Timeline) b
                          (by simpa using hbeq)
                        rw [show upsertTimelineRow stsem.timelines _ =
                          upsertByID (fun r => r.id) stsem.timelines _ from rfl]
                        rw [hpres, eqT]
                        exact ⟨tl0, hb, rfl⟩
  · intro d st st1 document signature doc0 res nid hp hid h hn hne
    simp only [upsertTimeline, hp] at h
    cases hsem : semanticStep d st doc0 with
    | none =>
      simp only [hsem] at h
      rw [Prod.mk.injEq] at h
      exact ⟨h.1.symm, by rw [← h.2]⟩
    | some pair =>
      obtain ⟨doc1, stsem⟩ := pair
      simp only [hsem] at h
      obtain ⟨hdoc1, eqT⟩ := semanticStep_inv d st doc0 doc1 stsem hid hsem
      rw [hdoc1] at h
      cases hent : d.entityGet doc0.signer with
      | none =>
        simp only [hent] at h
        rw [Prod.mk.injEq] at h
        exact ⟨h.1.symm, by rw [← h.2, eqT]⟩
      | some signer =>
        simp only [hent] at h
        rw [if_neg hid] at h
        simp only [hn] at h
        rw [if_pos hne] at h
        rw [Prod.mk.injEq] at h
        exact ⟨h.1.symm, by rw [← h.2, eqT]⟩

/-- Witness for C6: updating a stored non-domain-owned timeline with a
document claiming `DomainOwned = true` keeps the stored row's
`DomainOwned = false`. -/
theorem upsertTimeline_domainOwned_immutable_witness :
    ∃ tl1, ((upsertTimeline utDepsW utStateW "tdoc" "sig").2).timelines.find?
        (·.id == tlID26) = some tl1 ∧
      tl1.domainOwned = tlRowW.domainOwned :=
  upsertTimeline_domainOwned_immutable.1 utDepsW utStateW
    (upsertTimeline utDepsW utStateW "tdoc" "sig").2 "tdoc" "sig"
    ⟨"t" ++ tlID26, "con1owner", 100, "", "", "pp", true, true, "sch"⟩
    (upsertTimeline utDepsW utStateW "tdoc" "sig").1 (by decide) (by decide)
    rfl tlID26 tlRowW (by decide)

end Concrnt
